import Mathlib

/-!
Verification of the BrumSchtick map-format parser and brush-geometry kernel.

Shallow embedding of the relevant C++ code:
* `MapParser` — `sanitizePatchCount` from `common/src/io/StandardMapParser.cpp`.
* `Tok` — the `QuakeMapTokenizer` from `common/src/io/StandardMapParser.cpp`.
* `Hotspot` — `parseHotspotRectFile` from `common/src/io/HotspotRectParser.cpp`.
* `Patch` — the `BezierPatch` model from `common/src/mdl/BezierPatch.cpp`.
* `Geo` — `csgIntersect`, `chamferBrushEdge` and `chamferEdges` from
  `common/src/mdl/Map_Geometry.cpp`.

Doubles are modelled as exact rationals; `size_t` counts as `Nat`.
-/

set_option maxRecDepth 16000

namespace Spec2Proof

/-- `kdl::result` / `Result<T>`: success value or error. -/
inductive Result (epsilon alpha : Type) where
  | error : epsilon → Result epsilon alpha
  | ok : alpha → Result epsilon alpha
deriving DecidableEq, Repr

/-- Decidable equality for `Except` (core does not derive one), so that
concrete parses can be settled by `decide`. -/
instance {e a : Type} [DecidableEq e] [DecidableEq a] : DecidableEq (Except e a) := fun x y =>
  match x, y with
  | .error e1, .error e2 =>
    if h : e1 = e2 then .isTrue (by rw [h])
    else .isFalse (fun hc => h (by injection hc))
  | .error _, .ok _ => .isFalse (fun hc => Except.noConfusion hc)
  | .ok _, .error _ => .isFalse (fun hc => Except.noConfusion hc)
  | .ok a1, .ok a2 =>
    if h : a1 = a2 then .isTrue (by rw [h])
    else .isFalse (fun hc => h (by injection hc))

namespace MapParser

/-- Embeds `sanitizePatchCount` (StandardMapParser.cpp:61-81).
Returns the sanitized count together with the warnings emitted via the
`ParserStatus` sink (the warning text is abbreviated to its shape). -/
def sanitizePatchCount (count : Nat) : Nat × List String :=
  if count < 3 then
    (3, ["Invalid patch count, expanding to 3"])
  else if count % 2 == 0 then
    (count + 1, ["Invalid patch count, expanding"])
  else
    (count, [])

end MapParser

namespace Tok

/-- Token kinds of `QuakeMapToken` (StandardMapParser.h / tokenNames,
StandardMapParser.cpp:42-59).  `ParseError` stands for the thrown
`ParserException` (StandardMapParser.cpp:250), folded into the token stream so
that the embedding stays total. -/
inductive TokenKind where
  | Integer
  | Decimal
  | String
  | OParenthesis
  | CParenthesis
  | OBrace
  | CBrace
  | OBracket
  | CBracket
  | Comment
  | Eol
  | Eof
  | ParseError
deriving DecidableEq, Repr

/-- A token: kind plus the raw text span (source locations elided; none of the
verified properties mention them). -/
structure Token where
  kind : TokenKind
  data : List Char
deriving DecidableEq, Repr

/-- Modelled from the spec: the base tokenizer's whitespace set (the generic
`Tokenizer` base class is not under src/). -/
def whitespaceChars : List Char := [' ', '\t', '\n', '\r']

/-- `QuakeMapTokenizer::NumberDelim` (StandardMapParser.cpp:143-147): the
numeric token delimiter set is whitespace plus a closing parenthesis. -/
def NumberDelim : List Char := whitespaceChars ++ [')']

/-- Modelled from the spec: the base tokenizer's `discardUntil` (not under
src/): skip characters up to, but not including, the first stop character. -/
def discardUntil (stops : List Char) : List Char → List Char
  | [] => []
  | c :: cs => if c ∈ stops then c :: cs else discardUntil stops cs

/-- Modelled from the spec: the base tokenizer's `discardWhile` (not under
src/): skip characters as long as they belong to the given set. -/
def discardWhile (keep : List Char) : List Char → List Char
  | [] => []
  | c :: cs => if c ∈ keep then discardWhile keep cs else c :: cs

/-- Helper: split a leading run of decimal digits off a character list. -/
def digitRun : List Char → List Char × List Char
  | [] => ([], [])
  | c :: cs =>
    if c.isDigit then
      let (d, r) := digitRun cs
      (c :: d, r)
    else ([], c :: cs)

/-- Modelled from the spec: the base tokenizer's `readInteger` (not under
src/).  An optional sign followed by at least one digit, accepted only when
followed by a delimiter or end of input; otherwise the read is abandoned with
no input consumed. -/
def readInteger (delims : List Char) (cs : List Char) : Option (List Char × List Char) :=
  let (sign, afterSign) :=
    match cs with
    | c :: rest => if c = '+' ∨ c = '-' then ([c], rest) else (([] : List Char), cs)
    | [] => (([] : List Char), cs)
  let (ds, rest) := digitRun afterSign
  if ds = [] then none
  else
    match rest with
    | [] => some (sign ++ ds, [])
    | c :: _ => if c ∈ delims then some (sign ++ ds, rest) else none

/-- Helper: split a leading run of digits and dots off a character list. -/
def decimalRun : List Char → List Char × List Char
  | [] => ([], [])
  | c :: cs =>
    if c.isDigit ∨ c = '.' then
      let (d, r) := decimalRun cs
      (c :: d, r)
    else ([], c :: cs)

/-- Modelled from the spec: the base tokenizer's `readDecimal` (not under
src/).  An optional sign followed by a nonempty run of digits and dots
containing at least one digit, accepted only when followed by a delimiter or
end of input. -/
def readDecimal (delims : List Char) (cs : List Char) : Option (List Char × List Char) :=
  let (sign, afterSign) :=
    match cs with
    | c :: rest => if c = '+' ∨ c = '-' then ([c], rest) else (([] : List Char), cs)
    | [] => (([] : List Char), cs)
  let (ds, rest) := decimalRun afterSign
  if ds = [] ∨ ds.all (· = '.') then none
  else
    match rest with
    | [] => some (sign ++ ds, [])
    | c :: _ => if c ∈ delims then some (sign ++ ds, rest) else none

/-- Modelled from the spec: the base tokenizer's `readUntil` (not under
src/): read a nonempty run of characters up to the first delimiter. -/
def readUntil (delims : List Char) : List Char → Option (List Char × List Char)
  | [] => none
  | c :: cs =>
    if c ∈ delims then none
    else
      match readUntil delims cs with
      | some (t, r) => some (c :: t, r)
      | none => some ([c], cs)

/-- Modelled from the spec: the base tokenizer's `readQuotedString` (not under
src/): read up to the closing quote (consumed) with backslash escapes, or stop
defensively at a newline or closing brace (not consumed) or end of input. -/
def readQuotedString : List Char → List Char × List Char
  | [] => ([], [])
  | c :: cs =>
    if c = '"' then ([], cs)
    else if c = '\n' ∨ c = '}' then ([], c :: cs)
    else if c = '\\' then
      match cs with
      | [] => ([c], [])
      | d :: ds =>
        let (t, r) := readQuotedString ds
        (c :: d :: t, r)
    else
      let (t, r) := readQuotedString cs
      (c :: t, r)
termination_by cs => cs.length

/-- The non-recursive structural-singleton and quoted-string cases of
`emitToken` (StandardMapParser.cpp:189-214). -/
def emitSingle (c : Char) (cs : List Char) : Token × List Char :=
  if c = '{' then (⟨.OBrace, [c]⟩, cs)
  else if c = '}' then (⟨.CBrace, [c]⟩, cs)
  else if c = '(' then (⟨.OParenthesis, [c]⟩, cs)
  else if c = ')' then (⟨.CParenthesis, [c]⟩, cs)
  else if c = '[' then (⟨.OBracket, [c]⟩, cs)
  else if c = ']' then (⟨.CBracket, [c]⟩, cs)
  else
    let (t, r) := readQuotedString cs
    (⟨.String, t⟩, r)

/-- The non-recursive default case of `emitToken`
(StandardMapParser.cpp:234-250): integer, then decimal, then bare word;
anything else is the thrown parse error. -/
def emitNumberOrWord (c : Char) (cs : List Char) : Token × List Char :=
  match readInteger NumberDelim (c :: cs) with
  | some (t, r) => (⟨.Integer, t⟩, r)
  | none =>
    match readDecimal NumberDelim (c :: cs) with
    | some (t, r) => (⟨.Decimal, t⟩, r)
    | none =>
      match readUntil whitespaceChars (c :: cs) with
      | some (t, r) => (⟨.String, t⟩, r)
      | none => (⟨.ParseError, [c]⟩, cs)

/-- `QuakeMapTokenizer::emitToken` (StandardMapParser.cpp:159-254).  The state
is the remaining input; the `while` loop becomes fuel-bounded recursion (every
iteration consumes at least one character, so the `length + 1` fuel supplied
by `emitToken` is never exhausted).  Returns the next token together with the
remaining input after it. -/
def emitTokenAux (skipEol : Bool) : Nat → List Char → Token × List Char
  | _, [] => (⟨.Eof, []⟩, [])
  | 0, c :: cs => (⟨.Eof, []⟩, c :: cs)
  | fuel + 1, c :: cs =>
    if c = '/' then
      if cs.head? = some '/' then
        if cs.tail.head? = some '/' ∧ cs.tail.tail.head? = some ' ' then
          -- three slashes followed by a space: annotated comment token whose
          -- span is c .. c+3, i.e. exactly the marker (lines 174-179)
          (⟨.Comment, ['/', '/', '/']⟩, cs.tail.tail)
        else emitTokenAux skipEol fuel (discardUntil ['\n', '\r'] cs.tail)
      else emitTokenAux skipEol fuel cs
    else if c = ';' then
      -- semicolon line comment (lines 183-187)
      emitTokenAux skipEol fuel (discardUntil ['\n', '\r'] cs)
    else if c = '{' ∨ c = '}' ∨ c = '(' ∨ c = ')' ∨ c = '[' ∨ c = ']' ∨ c = '"' then
      emitSingle c cs
    else if c = '\r' ∨ c = '\n' then
      -- a CR folds a directly following LF into one EOL event (lines 215-229)
      let rest := if c = '\r' ∧ cs.head? = some '\n' then cs.tail else cs
      if !skipEol then (⟨.Eol, [c]⟩, rest)
      else emitTokenAux skipEol fuel (discardWhile whitespaceChars rest)
    else if c = ' ' ∨ c = '\t' then
      emitTokenAux skipEol fuel (discardWhile whitespaceChars cs)
    else
      emitNumberOrWord c cs

/-- See `emitTokenAux`. -/
def emitToken (skipEol : Bool) (cs : List Char) : Token × List Char :=
  emitTokenAux skipEol (cs.length + 1) cs

/-- Drive `emitToken` to exhaustion: all tokens before `Eof`, as the parser
obtains them through `nextToken`/`peekToken`.  Fuel-based recursion; every
non-`Eof` token consumes at least one character, so `length + 1` steps
suffice. -/
def tokenizeAux (skipEol : Bool) : Nat → List Char → List Token
  | 0, _ => []
  | fuel + 1, cs =>
    let (t, r) := emitToken skipEol cs
    if t.kind = .Eof then []
    else t :: tokenizeAux skipEol fuel r

/-- Tokenize a whole input string (EOL significance given by `skipEol`,
cf. `setSkipEol`, StandardMapParser.cpp:154-157). -/
def tokenize (skipEol : Bool) (input : String) : List Token :=
  tokenizeAux skipEol (input.toList.length + 1) input.toList

end Tok

namespace Hotspot

/-- `mdl::HotspotRect` (HotspotRectParser.h): min/size as 2D rationals, tile
flags, weight. -/
structure HotspotRect where
  min : ℚ × ℚ
  size : ℚ × ℚ
  tileU : Bool
  tileV : Bool
  weight : ℚ
deriving DecidableEq, Repr

/-- `HotspotRectMap` (std::map from texture name to rect list); modelled as an
association list in first-insertion order (std::map key order is not needed by
any verified property). -/
abbrev HotspotRectMap := List (String × List HotspotRect)

/-- `trim` (HotspotRectParser.cpp:34-43). -/
def trim (value : String) : String :=
  let ws := [' ', '\t', '\r', '\n']
  let l := (value.toList.dropWhile (fun c => ws.contains c)).reverse
  String.mk ((l.dropWhile (fun c => ws.contains c)).reverse)

/-- Position of the first "//" in a character list, if any
(HotspotRectParser.cpp:47). -/
def slashSlashPos : List Char → Option Nat
  | [] => none
  | c :: cs =>
    match cs with
    | d :: _ => if c = '/' ∧ d = '/' then some 0 else (slashSlashPos cs).map (· + 1)
    | [] => none

/-- `stripComments` (HotspotRectParser.cpp:45-53): cut the line at the first
"//" or '#', whichever comes first. -/
def stripComments (line : String) : String :=
  let cs := line.toList
  let slashPos := (slashSlashPos cs).getD cs.length
  let hashPos := ((cs.findIdx? (· = '#')).getD cs.length)
  String.mk (cs.take (Nat.min slashPos hashPos))

/-- Characters accepted by `std::isspace` in the default locale. -/
def isSpaceChar (c : Char) : Bool :=
  [' ', '\t', '\n', '\r', '\x0b', '\x0c'].contains c

/-- `tokenizeLine` (HotspotRectParser.cpp:55-107): whitespace-separated words,
with `{`, `}` as singleton tokens and double-quoted runs kept verbatim.
Fuel-based recursion (each iteration consumes at least one character, so
`length + 1` steps suffice). -/
def tokenizeLineAux : Nat → List Char → List String
  | 0, _ => []
  | fuel + 1, cs =>
    let cs' := cs.dropWhile isSpaceChar
    match cs' with
    | [] => []
    | c :: rest =>
      if c = '{' ∨ c = '}' then
        String.mk [c] :: tokenizeLineAux fuel rest
      else if c = '"' then
        let content := rest.takeWhile (fun d => ¬ d = '"')
        let after := rest.dropWhile (fun d => ¬ d = '"')
        let after' := if after.head? = some '"' then after.tail else after
        String.mk content :: tokenizeLineAux fuel after'
      else
        let wordChar := fun d => ¬ isSpaceChar d ∧ ¬ d = '{' ∧ ¬ d = '}'
        String.mk (c :: rest.takeWhile wordChar)
          :: tokenizeLineAux fuel (rest.dropWhile wordChar)

/-- See `tokenizeLineAux`. -/
def tokenizeLine (line : String) : List String :=
  tokenizeLineAux (line.toList.length + 1) line.toList

/-- `toLower` (HotspotRectParser.cpp:109-116), ASCII lower-casing. -/
def toLower (value : String) : String :=
  String.mk (value.toList.map Char.toLower)

/-- `isRectanglesKeyword` (HotspotRectParser.cpp:118-122). -/
def isRectanglesKeyword (value : String) : Bool :=
  toLower value = "rectangles" ∨ toLower value = "rectangle"

/-- `currentTextureName` (HotspotRectParser.cpp:124-134): the innermost
nonempty scope name that is not a rectangles keyword. -/
def currentTextureName (stack : List String) : Option String :=
  stack.reverse.find? (fun v => ¬ v.toList.isEmpty ∧ ¬ isRectanglesKeyword v)

/-- Leading digit run of a character list (digits taken, rest returned). -/
def digitRun (cs : List Char) : List Char × List Char :=
  (cs.takeWhile Char.isDigit, cs.dropWhile Char.isDigit)

/-- One attempted match of the number regex `[-+]?\d*\.?\d+`
(HotspotRectParser.cpp:138) anchored at the head of the input, with the
backtracking semantics of ECMAScript regexes: a trailing dot without digits
after it is dropped from the match. -/
def numberAt (cs : List Char) : Option (List Char × List Char) :=
  let (sign, afterSign) :=
    match cs with
    | c :: rest => if c = '-' ∨ c = '+' then ([c], rest) else (([] : List Char), cs)
    | [] => (([] : List Char), cs)
  let (d1, q) := digitRun afterSign
  match q with
  | '.' :: q' =>
    let (d2, r) := digitRun q'
    if ¬ d2 = [] then some (sign ++ d1 ++ '.' :: d2, r)
    else if ¬ d1 = [] then some (sign ++ d1, q) else none
  | _ => if ¬ d1 = [] then some (sign ++ d1, q) else none

/-- Value of a digit character. -/
def digitVal (c : Char) : Nat := c.toNat - '0'.toNat

/-- Natural number denoted by a digit run. -/
def digitsToNat (cs : List Char) : Nat :=
  cs.foldl (fun a c => 10 * a + digitVal c) 0

/-- The exact rational value denoted by a regex match of `[-+]?\d*\.?\d+`. -/
def ratOfNumChars (m : List Char) : ℚ :=
  let (sgn, body) :=
    match m with
    | '-' :: r => ((-1 : ℚ), r)
    | '+' :: r => ((1 : ℚ), r)
    | _ => ((1 : ℚ), m)
  let (d1, q) := digitRun body
  let frac :=
    match q with
    | '.' :: q' => q'.takeWhile Char.isDigit
    | _ => []
  sgn * ((digitsToNat d1 : ℚ) + (digitsToNat frac : ℚ) / ((10 : ℚ) ^ frac.length))

/-- The smallest magnitude at which `std::stof` overflows under
round-to-nearest: halfway between the largest finite float (2^128 - 2^104)
and 2^128; the regex never matches an exponent, so only plain digit runs can
reach it. -/
def stofOverflowThreshold : ℚ := 2 ^ 128 - 2 ^ 103

/-- Model of `std::stof` applied to a regex number match: the exact rational
value, or the thrown `std::out_of_range` exception when the value overflows
the float range (in-range rounding is not modelled; whether a C library also
reports ERANGE on underflow to subnormals is implementation-defined and not
modelled). -/
def stof (m : List Char) : Except String ℚ :=
  if stofOverflowThreshold ≤ |ratOfNumChars m| then .error ("std::out_of_range")
  else .ok (ratOfNumChars m)

/-- `parseNumbers` (HotspotRectParser.cpp:136-147): successive non-overlapping
leftmost matches of the number regex over the line, each converted by
`std::stof`, whose `std::out_of_range` exception propagates.  Fuel-based scan
(each step consumes at least one character). -/
def parseNumbersAux : Nat → List Char → Except String (List ℚ)
  | 0, _ => .ok []
  | fuel + 1, cs =>
    match cs with
    | [] => .ok []
    | c :: cs' =>
      match numberAt (c :: cs') with
      | some (m, r) =>
        match stof m with
        | .error e => .error e
        | .ok v =>
          match parseNumbersAux fuel r with
          | .error e => .error e
          | .ok vs => .ok (v :: vs)
      | none => parseNumbersAux fuel cs'

/-- See `parseNumbersAux`. -/
def parseNumbers (cs : List Char) : Except String (List ℚ) :=
  parseNumbersAux (cs.length + 1) cs

/-- Modelled from the spec: `kdl::str_to_float` (kdl library, not under src/):
parse a whole string as a (here exact-rational) floating point literal,
`none` if the string is not entirely a number. -/
def strToFloat (value : String) : Option ℚ :=
  let cs := value.toList
  let (sign, afterSign) :=
    match cs with
    | c :: rest => if c = '-' ∨ c = '+' then ([c], rest) else (([] : List Char), cs)
    | [] => (([] : List Char), cs)
  let (d1, q) := digitRun afterSign
  let (frac, r) :=
    match q with
    | '.' :: q' => (let (d2, r') := digitRun q'; (d2, r'))
    | _ => (([] : List Char), q)
  if (d1 = [] ∧ frac = []) ∨ ¬ r = [] then none
  else some (ratOfNumChars (sign ++ d1 ++ (if q.head? = some '.' then '.' :: frac else [])))

/-- `parseWeightToken` (HotspotRectParser.cpp:149-162): a `weight=<v>` or
`w=<v>` token. -/
def parseWeightToken (token : String) : Option ℚ :=
  let cs := token.toList
  match cs.findIdx? (· = '=') with
  | none => none
  | some pos =>
    let key := toLower (String.mk (cs.take pos))
    if ¬ key = "weight" ∧ ¬ key = "w" then none
    else strToFloat (String.mk (cs.drop (pos + 1)))

/-- `parseWeight` (HotspotRectParser.cpp:164-184): first `weight=`/`w=` token
or `weight <v>`/`w <v>` pair, defaulting to 1.0. -/
def parseWeight : List String → ℚ
  | [] => 1
  | t :: rest =>
    match parseWeightToken t with
    | some v => v
    | none =>
      let lower := toLower t
      if lower = "weight" ∨ lower = "w" then
        match rest with
        | next :: _ =>
          match strToFloat next with
          | some v => v
          | none => parseWeight rest
        | [] => parseWeight rest
      else parseWeight rest

/-- `hasToken` (HotspotRectParser.cpp:186-191). -/
def hasToken (tokens : List String) (token : String) : Bool :=
  tokens.any (fun v => toLower v = token)

/-- The brace-scope update of one line's token list
(HotspotRectParser.cpp:213-235): `{` pushes the preceding token (or the
pending block name, or an anonymous scope) and clears the pending name; `}`
pops unless the stack is empty. -/
def processScopes (prev : Option String) (stack : List String) (pending : Option String) :
    List String → List String × Option String
  | [] => (stack, pending)
  | t :: rest =>
    if t = "\x7b" then
      let stack' :=
        match prev with
        | some p => stack ++ [p]
        | none =>
          match pending with
          | some pb => stack ++ [pb]
          | none => stack ++ [""]
      processScopes (some t) stack' none rest
    else if t = "\x7d" ∧ ¬ stack = [] then
      processScopes (some t) stack.dropLast pending rest
    else
      processScopes (some t) stack pending rest

/-- Append a rect under a texture name (`result[*textureName].push_back`,
HotspotRectParser.cpp:279). -/
def mapAppend (m : HotspotRectMap) (name : String) (rect : HotspotRect) : HotspotRectMap :=
  match m with
  | [] => [(name, [rect])]
  | (k, rs) :: tl =>
    if k = name then (k, rs ++ [rect]) :: tl
    else (k, rs) :: mapAppend tl name rect

/-- Mutable state of the parse loop (HotspotRectParser.cpp:198-200). -/
structure ParseState where
  result : HotspotRectMap
  scopeStack : List String
  pending : Option String
deriving DecidableEq, Repr

/-- One iteration of the `getline` loop of `parseHotspotRectFile`
(HotspotRectParser.cpp:204-280).  The error case is the uncaught
`std::out_of_range` escaping from `std::stof` inside `parseNumbers`. -/
def processLine (defaultTextureName : Option String) (st : ParseState) (rawLine : String) :
    Except String ParseState :=
  let cleanedLine := trim (stripComments rawLine)
  if cleanedLine.toList.isEmpty then .ok st
  else
    let tokens := tokenizeLine cleanedLine
    let scopes := processScopes none st.scopeStack st.pending tokens
    let stack' := scopes.1
    let pending' := scopes.2
    let pending'' :=
      if tokens.length = 1 ∧ ¬ tokens.head? = some ("\x7b") ∧ ¬ tokens.head? = some ("\x7d") then
        match tokens.head? with
        | some t => if (strToFloat t).isNone then some t else pending'
        | none => pending'
      else pending'
    let skipped : ParseState := { st with scopeStack := stack', pending := pending'' }
    let textureName :=
      match currentTextureName stack' with
      | some n => some n
      | none => defaultTextureName
    match textureName with
    | none => .ok skipped
    | some name =>
      match parseNumbers cleanedLine.toList with
      | .error e => .error e
      | .ok values =>
      if values.length < 4 then .ok skipped
      else
        let rectMin := (values.getD 0 0, values.getD 1 0)
        let rectSize := (values.getD 2 0, values.getD 3 0)
        if rectSize.1 ≤ 0 ∨ rectSize.2 ≤ 0 then .ok skipped
        else
          let tileU := hasToken tokens ("tileu") ∨ hasToken tokens ("tile_u")
                       ∨ hasToken tokens ("repeatu") ∨ hasToken tokens ("repeat_u")
                       ∨ hasToken tokens ("tilex") ∨ hasToken tokens ("tile-h")
                       ∨ hasToken tokens ("tileh")
          let tileV := hasToken tokens ("tilev") ∨ hasToken tokens ("tile_v")
                       ∨ hasToken tokens ("repeatv") ∨ hasToken tokens ("repeat_v")
                       ∨ hasToken tokens ("tiley") ∨ hasToken tokens ("tile-v")
          let weight := parseWeight tokens
          let rect : HotspotRect := ⟨rectMin, rectSize, tileU, tileV, weight⟩
          .ok { skipped with result := mapAppend st.result name rect }

/-- Split a character list at newlines. -/
def splitLinesAux : List Char → List Char → List String
  | [], acc => [String.mk acc.reverse]
  | c :: cs, acc =>
    if c = '\n' then String.mk acc.reverse :: splitLinesAux cs []
    else splitLinesAux cs (c :: acc)

/-- The lines delivered by the `std::getline` loop: split on newlines, with no
phantom empty line after a trailing newline. -/
def getLines (contents : String) : List String :=
  if contents.toList.isEmpty then []
  else
    let parts := splitLinesAux contents.toList []
    match parts.getLast? with
    | some l => if l.toList.isEmpty then parts.dropLast else parts
    | none => parts

/-- The `getline` loop of `parseHotspotRectFile`: process the lines in order,
stopping when an exception escapes a line. -/
def processLines (defaultTextureName : Option String) :
    ParseState → List String → Except String ParseState
  | st, [] => .ok st
  | st, line :: rest =>
    match processLine defaultTextureName st line with
    | .error e => .error e
    | .ok st2 => processLines defaultTextureName st2 rest

/-- `parseHotspotRectFile` (HotspotRectParser.cpp:195-283).  The function
itself has no failure path — its declared `Result` (the inner value) is
always the success holding the accumulated map — but the `std::out_of_range`
exception thrown by `std::stof` propagates uncaught, modelled by the outer
`Except` error. -/
def parseHotspotRectFile (contents : String) (defaultTextureName : Option String) :
    Except String (Result String HotspotRectMap) :=
  match processLines defaultTextureName ⟨[], [], none⟩ (getLines contents) with
  | .error e => .error e
  | .ok st => .ok (.ok st.result)

end Hotspot

/-- `vm::vec3d`, with doubles as exact rationals. -/
structure Vec3 where
  x : ℚ
  y : ℚ
  z : ℚ
deriving DecidableEq, Repr, Inhabited

/-- `vm::vec<double,5>`: position plus two UV coordinates
(`BezierPatch::Point`). -/
structure Vec5 where
  x : ℚ
  y : ℚ
  z : ℚ
  u : ℚ
  v : ℚ
deriving DecidableEq, Repr, Inhabited

def add3 (a b : Vec3) : Vec3 := ⟨a.x + b.x, a.y + b.y, a.z + b.z⟩

def sub3 (a b : Vec3) : Vec3 := ⟨a.x - b.x, a.y - b.y, a.z - b.z⟩

def smul3 (k : ℚ) (a : Vec3) : Vec3 := ⟨k * a.x, k * a.y, k * a.z⟩

def dot3 (a b : Vec3) : ℚ := a.x * b.x + a.y * b.y + a.z * b.z

def cross3 (a b : Vec3) : Vec3 :=
  ⟨a.y * b.z - a.z * b.y, a.z * b.x - a.x * b.z, a.x * b.y - a.y * b.x⟩

def sqLen3 (a : Vec3) : ℚ := dot3 a a

/-- Componentwise minimum (`vm::min`). -/
def min3c (a b : Vec3) : Vec3 := ⟨min a.x b.x, min a.y b.y, min a.z b.z⟩

/-- Componentwise maximum (`vm::max`). -/
def max3c (a b : Vec3) : Vec3 := ⟨max a.x b.x, max a.y b.y, max a.z b.z⟩

/-- Model of `vm::constants<double>::almost_zero()` as a small positive
rational. -/
def almostZero : ℚ := 1 / 1000000000

/-- Model of `vm::is_zero` on vectors: every component within epsilon. -/
def isZero3 (a : Vec3) (epsilon : ℚ) : Bool :=
  |a.x| < epsilon ∧ |a.y| < epsilon ∧ |a.z| < epsilon

def add5 (a b : Vec5) : Vec5 := ⟨a.x + b.x, a.y + b.y, a.z + b.z, a.u + b.u, a.v + b.v⟩

def smul5 (k : ℚ) (a : Vec5) : Vec5 := ⟨k * a.x, k * a.y, k * a.z, k * a.u, k * a.v⟩

def Vec5.xyz (a : Vec5) : Vec3 := ⟨a.x, a.y, a.z⟩

/-- A 3x3 matrix, the linear part of a transformation. -/
structure Mat3 where
  m00 : ℚ
  m01 : ℚ
  m02 : ℚ
  m10 : ℚ
  m11 : ℚ
  m12 : ℚ
  m20 : ℚ
  m21 : ℚ
  m22 : ℚ
deriving DecidableEq, Repr

def Mat3.mulVec (m : Mat3) (a : Vec3) : Vec3 :=
  ⟨m.m00 * a.x + m.m01 * a.y + m.m02 * a.z,
   m.m10 * a.x + m.m11 * a.y + m.m12 * a.z,
   m.m20 * a.x + m.m21 * a.y + m.m22 * a.z⟩

def Mat3.det (m : Mat3) : ℚ :=
  m.m00 * (m.m11 * m.m22 - m.m12 * m.m21)
    - m.m01 * (m.m10 * m.m22 - m.m12 * m.m20)
    + m.m02 * (m.m10 * m.m21 - m.m11 * m.m20)

def Mat3.transpose (m : Mat3) : Mat3 :=
  ⟨m.m00, m.m10, m.m20, m.m01, m.m11, m.m21, m.m02, m.m12, m.m22⟩

/-- `vm::invert` on the linear part: the adjugate over the determinant, `none`
when singular. -/
def Mat3.inverse (m : Mat3) : Option Mat3 :=
  let d := m.det
  if d = 0 then none
  else
    some
      ⟨(m.m11 * m.m22 - m.m12 * m.m21) / d, (m.m02 * m.m21 - m.m01 * m.m22) / d,
       (m.m01 * m.m12 - m.m02 * m.m11) / d, (m.m12 * m.m20 - m.m10 * m.m22) / d,
       (m.m00 * m.m22 - m.m02 * m.m20) / d, (m.m02 * m.m10 - m.m00 * m.m12) / d,
       (m.m10 * m.m21 - m.m11 * m.m20) / d, (m.m01 * m.m20 - m.m00 * m.m21) / d,
       (m.m00 * m.m11 - m.m01 * m.m10) / d⟩

/-- Modelled from the spec: `vm::mat4x4d` as used by the editor's transforms —
an affine map (linear part plus translation; the projective bottom row is
never used by patch/brush transforms). -/
structure Affine where
  linear : Mat3
  translation : Vec3
deriving DecidableEq, Repr

def Affine.apply (t : Affine) (a : Vec3) : Vec3 :=
  add3 (t.linear.mulVec a) t.translation

/-- `vm::is_orientation_preserving_transform`: positive determinant of the
linear part (modelled from the spec's "negative determinant / mirrors
handedness"). -/
def Affine.isOrientationPreserving (t : Affine) : Bool := 0 < t.linear.det

namespace Patch

/-- `mdl::BezierPatch` (BezierPatch.cpp): flat row-major control point grid,
optional parallel normals, cached bounds. -/
structure BezierPatch where
  pointRowCount : Nat
  pointColumnCount : Nat
  controlPoints : List Vec5
  controlNormals : List Vec3
  bounds : Option (Vec3 × Vec3)
  materialName : String
  surfaceContents : Int
  surfaceFlags : Int
  surfaceValue : ℚ
deriving DecidableEq, Repr

/-- One `vm::bbox3d::builder::add` step; the builder is `none` while empty. -/
def addToBuilder : Option (Vec3 × Vec3) → Vec3 → Option (Vec3 × Vec3)
  | none, p => some (p, p)
  | some (lo, hi), p => some (min3c lo p, max3c hi p)

/-- `computeBounds` (BezierPatch.cpp:40-48): fold every control point position
into a bounds builder. -/
def computeBounds (points : List Vec5) : Option (Vec3 × Vec3) :=
  points.foldl (fun b p => addToBuilder b p.xyz) none

/-- The `BezierPatch` constructor (BezierPatch.cpp:51-76): stores the grid and
derives the bounds. -/
def mkBezierPatch (pointRowCount pointColumnCount : Nat) (controlPoints : List Vec5)
    (materialName : String) (surfaceContents surfaceFlags : Int) (surfaceValue : ℚ)
    (controlNormals : List Vec3) : BezierPatch :=
  ⟨pointRowCount, pointColumnCount, controlPoints, controlNormals,
    computeBounds controlPoints, materialName, surfaceContents, surfaceFlags,
    surfaceValue⟩

/-- The construction contract (`contract_pre`, BezierPatch.cpp:70-75). -/
def Invariant (p : BezierPatch) : Prop :=
  2 < p.pointRowCount ∧ 2 < p.pointColumnCount
    ∧ p.pointRowCount % 2 = 1 ∧ p.pointColumnCount % 2 = 1
    ∧ p.controlPoints.length = p.pointRowCount * p.pointColumnCount
    ∧ (p.controlNormals = []
        ∨ p.controlNormals.length = p.pointRowCount * p.pointColumnCount)

def quadRowCount (p : BezierPatch) : Nat := p.pointRowCount - 1

def quadColumnCount (p : BezierPatch) : Nat := p.pointColumnCount - 1

def surfaceRowCount (p : BezierPatch) : Nat := quadRowCount p / 2

def surfaceColumnCount (p : BezierPatch) : Nat := quadColumnCount p / 2

/-- `controlPoint` accessor (BezierPatch.cpp:136-143), row-major. -/
def controlPoint (p : BezierPatch) (row col : Nat) : Vec5 :=
  p.controlPoints.getD (row * p.pointColumnCount + col) default

/-- `setControlPoint` (BezierPatch.cpp:167-174): write the grid slot and
recompute the bounds. -/
def setControlPoint (p : BezierPatch) (row col : Nat) (cp : Vec5) : BezierPatch :=
  let pts := p.controlPoints.set (row * p.pointColumnCount + col) cp
  { p with controlPoints := pts, bounds := computeBounds pts }

/-- Net effect of the column-mirroring swap loop (BezierPatch.cpp:264-275):
entry (r, c) receives entry (r, cols-1-c). -/
def mirrorColumns {α : Type} [Inhabited α] (pts : List α) (rows cols : Nat) : List α :=
  (List.range (rows * cols)).map
    (fun i => pts.getD ((i / cols) * cols + (cols - 1 - i % cols)) default)

/-- The control-point stage of `BezierPatch::transform`
(BezierPatch.cpp:232-239): apply the transformation to every control point
position, keeping the UV components. -/
def transformedControlPoints (t : Affine) (p : BezierPatch) : List Vec5 :=
  p.controlPoints.map (fun cp =>
    Vec5.mk (t.apply cp.xyz).x (t.apply cp.xyz).y (t.apply cp.xyz).z cp.u cp.v)

/-- The normal stage of `BezierPatch::transform` (BezierPatch.cpp:241-256):
transform each non-near-zero normal by the inverse-transpose of the linear
part (falling back to the linear part when singular) and renormalize it.
`normalizeFn` stands for `vm::normalize` (real square roots have no exact
rational form; every verified property holds for an arbitrary such
function). -/
def transformedControlNormals (normalizeFn : Vec3 → Vec3) (t : Affine) (p : BezierPatch) :
    List Vec3 :=
  if p.controlNormals.isEmpty then p.controlNormals
  else
    let linearTransform := t.linear
    let normalTransform :=
      match linearTransform.inverse with
      | some inv => inv.transpose
      | none => linearTransform
    p.controlNormals.map (fun n =>
      if isZero3 n almostZero then n else normalizeFn (normalTransform.mulVec n))

/-- `BezierPatch::transform` (BezierPatch.cpp:230-277). -/
def transform (normalizeFn : Vec3 → Vec3) (t : Affine) (p : BezierPatch) : BezierPatch :=
  let pts1 := transformedControlPoints t p
  let bounds1 := computeBounds pts1
  let normals1 := transformedControlNormals normalizeFn t p
  if t.isOrientationPreserving then
    { p with controlPoints := pts1, controlNormals := normals1, bounds := bounds1 }
  else
    { p with
        controlPoints := mirrorColumns pts1 p.pointRowCount p.pointColumnCount
        controlNormals :=
          if normals1.isEmpty then normals1
          else mirrorColumns normals1 p.pointRowCount p.pointColumnCount
        bounds := bounds1 }

/-- The quadratic Bernstein basis. -/
def bern2 (t : ℚ) (i : Nat) : ℚ :=
  if i = 0 then (1 - t) ^ 2 else if i = 1 then 2 * t * (1 - t) else t ^ 2

/-- Modelled from the spec: `vm::evaluate_quadratic_bezier_surface` (vm
library, not under src/): the standard biquadratic Bezier surface basis, rows
weighted by `v`, columns by `u`. -/
def evalQBS (cp : Nat → Nat → Vec5) (uu vv : ℚ) : Vec5 :=
  add5 (smul5 (bern2 vv 0 * bern2 uu 0) (cp 0 0))
    (add5 (smul5 (bern2 vv 0 * bern2 uu 1) (cp 0 1))
      (add5 (smul5 (bern2 vv 0 * bern2 uu 2) (cp 0 2))
        (add5 (smul5 (bern2 vv 1 * bern2 uu 0) (cp 1 0))
          (add5 (smul5 (bern2 vv 1 * bern2 uu 1) (cp 1 1))
            (add5 (smul5 (bern2 vv 1 * bern2 uu 2) (cp 1 2))
              (add5 (smul5 (bern2 vv 2 * bern2 uu 0) (cp 2 0))
                (add5 (smul5 (bern2 vv 2 * bern2 uu 1) (cp 2 1))
                  (smul5 (bern2 vv 2 * bern2 uu 2) (cp 2 2)))))))))

/-- `collectSurfaceControlPoints` (BezierPatch.cpp:283-305) as a direct
accessor: entry (row, col) of the 3x3 block of surface (surfaceRow,
surfaceCol). -/
def surfaceCtrl (pts : List Vec5) (cols surfaceRow surfaceCol : Nat)
    (row col : Nat) : Vec5 :=
  pts.getD ((row + 2 * surfaceRow) * cols + (col + 2 * surfaceCol)) default

/-- `evaluatePatchGrid` (BezierPatch.cpp:332-424): sample every sub-surface on
a `(2^subdivisions+1)` grid, sharing border samples; a shared grid point
samples the earlier surface at local parameter 1. -/
def evaluatePatchGrid (pts : List Vec5) (rows cols subdivisionsPerSurface : Nat) :
    List Vec5 :=
  let q := 2 ^ subdivisionsPerSurface
  let sr := (rows - 1) / 2
  let sc := (cols - 1) / 2
  let gridPointRowCount := sr * q + 1
  let gridPointColumnCount := sc * q + 1
  (List.range gridPointRowCount).flatMap (fun gridRow =>
    let surfaceRow := (if 0 < gridRow then gridRow - 1 else gridRow) / q
    let vv : ℚ := ((gridRow - surfaceRow * q : Nat) : ℚ) / (q : ℚ)
    (List.range gridPointColumnCount).map (fun gridCol =>
      let surfaceCol := (if 0 < gridCol then gridCol - 1 else gridCol) / q
      let uu : ℚ := ((gridCol - surfaceCol * q : Nat) : ℚ) / (q : ℚ)
      evalQBS (surfaceCtrl pts cols surfaceRow surfaceCol) uu vv))

/-- `BezierPatch::evaluate` (BezierPatch.cpp:426-431). -/
def evaluate (p : BezierPatch) (subdivisionsPerSurface : Nat) : List Vec5 :=
  evaluatePatchGrid p.controlPoints p.pointRowCount p.pointColumnCount
    subdivisionsPerSurface

/-- A concrete 3x3 patch, used as a witness input. -/
def examplePatch : BezierPatch :=
  mkBezierPatch 3 3
    [⟨0, 0, 0, 0, 0⟩, ⟨1, 0, 0, 0, 0⟩, ⟨2, 0, 0, 0, 0⟩,
     ⟨0, 1, 0, 0, 0⟩, ⟨1, 1, 1, 0, 0⟩, ⟨2, 1, 0, 0, 0⟩,
     ⟨0, 2, 0, 0, 0⟩, ⟨1, 2, 0, 0, 0⟩, ⟨2, 2, 0, 0, 0⟩] ("") 0 0 0 []

/-- A concrete 3x3 patch with control normals, used as a witness input. -/
def examplePatchWithNormals : BezierPatch :=
  mkBezierPatch 3 3
    [⟨0, 0, 0, 0, 0⟩, ⟨1, 0, 0, 0, 0⟩, ⟨2, 0, 0, 0, 0⟩,
     ⟨0, 1, 0, 0, 0⟩, ⟨1, 1, 1, 0, 0⟩, ⟨2, 1, 0, 0, 0⟩,
     ⟨0, 2, 0, 0, 0⟩, ⟨1, 2, 0, 0, 0⟩, ⟨2, 2, 0, 0, 0⟩] ("") 0 0 0
    [⟨0, 0, 1⟩, ⟨0, 0, 1⟩, ⟨0, 0, 1⟩, ⟨0, 0, 1⟩, ⟨0, 0, 1⟩, ⟨0, 0, 1⟩,
     ⟨0, 0, 1⟩, ⟨0, 0, 1⟩, ⟨0, 0, 1⟩]

end Patch

/-- A concrete orientation-reversing transformation (mirror along x), used as
a witness input. -/
def mirrorAffine : Affine := ⟨⟨-1, 0, 0, 0, 1, 0, 0, 0, 1⟩, ⟨0, 0, 0⟩⟩

namespace Csg

/-- Modelled from the spec: a brush as a convex solid (`mdl::Brush`, not under
src/), here an axis-aligned box. -/
structure Brush where
  lo : Vec3
  hi : Vec3
deriving DecidableEq, Repr

/-- Modelled from the spec: `Brush::intersect` (mdl/Brush.cpp, not under
src/): clip by the other brush's half-spaces; fail when the result is
empty/degenerate.  For boxes: componentwise interval intersection. -/
def Brush.intersect (b o : Brush) : Result String Brush :=
  let lo := max3c b.lo o.lo
  let hi := min3c b.hi o.hi
  if lo.x < hi.x ∧ lo.y < hi.y ∧ lo.z < hi.z then .ok ⟨lo, hi⟩
  else .error ("brush is empty")

/-- The map state visible to `csgIntersect`: the selected brush nodes and the
rest of the world's brushes. -/
structure MapState where
  selectedBrushes : List Brush
  otherBrushes : List Brush
deriving DecidableEq, Repr

/-- One iteration of the pairwise intersection loop of `csgIntersect`
(Map_Geometry.cpp:1203-1213): intersect the running intersection with the next
brush while `valid` holds, logging the first failure. -/
def csgStep (acc : Brush × Bool × List String) (b : Brush) : Brush × Bool × List String :=
  if acc.2.1 then
    match acc.1.intersect b with
    | .ok b2 => (b2, true, acc.2.2)
    | .error e => (acc.1, false, acc.2.2 ++ ["Could not intersect brushes: " ++ e])
  else acc

/-- The pairwise intersection loop of `csgIntersect`
(Map_Geometry.cpp:1200-1213).  Returns (intersection, valid, error log). -/
def pairwiseIntersect (first : Brush) (rest : List Brush) : Brush × Bool × List String :=
  rest.foldl csgStep (first, true, [])

/-- `csgIntersect` (Map_Geometry.cpp:1192-1237).  Returns the committed
transaction result, the new map state, and the error log.  `addNodes`,
`removeNodes` and `Transaction::commit` are modelled as always succeeding
(their failure paths depend on the document model, an external
collaborator). -/
def csgIntersect (map : MapState) : Bool × MapState × List String :=
  match map.selectedBrushes with
  | [] => (false, map, [])
  | [_] => (false, map, [])
  | first :: rest =>
    let folded := pairwiseIntersect first rest
    -- Transaction; deselectNodes(map, toRemove)
    if folded.2.1 then
      (true, { selectedBrushes := [folded.1], otherBrushes := map.otherBrushes }, folded.2.2)
    else
      -- the selected brushes are removed even though the intersection failed
      (true, { selectedBrushes := [], otherBrushes := map.otherBrushes }, folded.2.2)

end Csg

namespace Chamfer

/-- A brush face as seen by `chamferBrushEdge`: only its normal matters. -/
structure Face where
  normal : Vec3
deriving DecidableEq, Repr, Inhabited

/-- A brush edge: endpoint positions, the payload indices of its two adjacent
faces, and whether it is fully specified. -/
structure Edge where
  start : Vec3
  stop : Vec3
  face1 : Option Nat
  face2 : Option Nat
  fullySpecified : Bool
deriving DecidableEq, Repr

/-- A brush as seen by the chamfer operation. -/
structure Brush where
  faces : List Face
  edges : List Edge
deriving DecidableEq, Repr

/-- `vm::segment3d`: an edge position as a start/end pair. -/
abbrev Seg := Vec3 × Vec3

/-- Model of `vm::constants<double>::point_status_epsilon()`. -/
def pointStatusEpsilon : ℚ := 1 / 100

/-- Epsilon equality of positions (componentwise). -/
def approxEq3 (a b : Vec3) (epsilon : ℚ) : Bool :=
  |a.x - b.x| < epsilon ∧ |a.y - b.y| < epsilon ∧ |a.z - b.z| < epsilon

/-- Modelled from the spec: `findEdgeByPositions` — the edge whose endpoint
positions match the given segment within epsilon (either orientation). -/
def findEdgeByPositions (brush : Brush) (seg : Seg) (epsilon : ℚ) : Option Edge :=
  brush.edges.find? (fun e =>
    (approxEq3 e.start seg.1 epsilon ∧ approxEq3 e.stop seg.2 epsilon)
      ∨ (approxEq3 e.start seg.2 epsilon ∧ approxEq3 e.stop seg.1 epsilon))

/-- Modelled from the spec: the bevel-face generation and clipping loop of
`chamferBrushEdge` (Map_Geometry.cpp:351-398), together with the preceding
`atan2` angle test.  It rotates normals with quaternions and `atan2`, which
have no exact rational form; every verified property quantifies over all
possible behaviours of this stage.  Arguments: brush, edge, projected
normals, distance, segments, didChamfer; result: (success, brush,
didChamfer). -/
def ChamferLoop : Type :=
  Brush → Edge → Vec3 → Vec3 → ℚ → Nat → Bool → Bool × Brush × Bool

/-- `chamferBrushEdge` (Map_Geometry.cpp:291-399) up to the angle/clip loop
(`loop`).  `normalizeFn` stands for `vm::normalize` (used by
`segment::direction`).  The `|dot| >= 1 - almost_zero` test on the normalized
projections (lines 342-349) is transcribed in its equivalent square-root-free
form over the unnormalized projections. -/
def chamferBrushEdge (loop : ChamferLoop) (normalizeFn : Vec3 → Vec3) (brush : Brush)
    (edgePosition : Seg) (distance : ℚ) (segments : Nat) (didChamfer : Bool) :
    Bool × Brush × Bool :=
  match findEdgeByPositions brush edgePosition pointStatusEpsilon with
  | none => (true, brush, didChamfer)
  | some edge =>
    if ¬ edge.fullySpecified then (true, brush, didChamfer)
    else
      match edge.face1, edge.face2 with
      | some faceIndex1, some faceIndex2 =>
        let face1 := brush.faces.getD faceIndex1 default
        let face2 := brush.faces.getD faceIndex2 default
        let axis := normalizeFn (sub3 edge.stop edge.start)
        if sqLen3 axis ≤ almostZero then (true, brush, didChamfer)
        else
          let n1 := sub3 face1.normal (smul3 (dot3 face1.normal axis) axis)
          let n2 := sub3 face2.normal (smul3 (dot3 face2.normal axis) axis)
          if sqLen3 n1 ≤ almostZero ∨ sqLen3 n2 ≤ almostZero then
            (true, brush, didChamfer)
          else if (1 - almostZero) ^ 2 * (sqLen3 n1 * sqLen3 n2) ≤ dot3 n1 n2 ^ 2 then
            (true, brush, didChamfer)
          else loop brush edge n1 n2 distance segments didChamfer
      | _, _ => (true, brush, didChamfer)

/-- The projected adjacent-face normal used by `chamferBrushEdge`
(Map_Geometry.cpp:329-333): the face normal minus its component along the
edge axis. -/
def projectedNormal (normalizeFn : Vec3 → Vec3) (brush : Brush) (edge : Edge)
    (faceIndex : Nat) : Vec3 :=
  let axis := normalizeFn (sub3 edge.stop edge.start)
  let n := (brush.faces.getD faceIndex default).normal
  sub3 n (smul3 (dot3 n axis) axis)

/-- The edge matched by a position (if any) has coplanar/parallel or
anti-parallel adjacent faces: the cross product of the projected adjacent-face
normals vanishes. -/
def coplanarAt (normalizeFn : Vec3 → Vec3) (brush : Brush) (seg : Seg) : Bool :=
  match findEdgeByPositions brush seg pointStatusEpsilon with
  | none => true
  | some edge =>
    match edge.face1, edge.face2 with
    | some i1, some i2 =>
      cross3 (projectedNormal normalizeFn brush edge i1)
          (projectedNormal normalizeFn brush edge i2)
        = Vec3.mk 0 0 0
    | _, _ => true

/-- The map state visible to `chamferEdges`: the selected brushes. -/
structure MapState where
  selectedBrushes : List Brush
deriving DecidableEq, Repr

/-- One step of the per-brush edge loop of `chamferEdges`
(Map_Geometry.cpp:993-999): chamfer the next matching edge while the previous
ones succeeded. -/
def chamferEdgeStep (loop : ChamferLoop) (normalizeFn : Vec3 → Vec3) (distance : ℚ)
    (segments : Nat) (st : Bool × Brush × Bool) (e : Seg) : Bool × Brush × Bool :=
  if st.1 then chamferBrushEdge loop normalizeFn st.2.1 e distance segments st.2.2
  else st

/-- The per-brush body of the `applyToNodeContents` fold in `chamferEdges`
(Map_Geometry.cpp:983-1002): accumulate the new brush contents (or `none`
after a failure) and the `didChamfer` flag. -/
def chamferBrushStep (loop : ChamferLoop) (normalizeFn : Vec3 → Vec3)
    (positions : List Seg) (distance : ℚ) (segments : Nat)
    (acc : Option (List Brush) × Bool) (brush : Brush) : Option (List Brush) × Bool :=
  match acc.1 with
  | none => acc
  | some bs =>
    let edgesToChamfer := positions.filter
      (fun e => (findEdgeByPositions brush e pointStatusEpsilon).isSome)
    if edgesToChamfer = [] then (some (bs ++ [brush]), acc.2)
    else
      let inner := edgesToChamfer.foldl
        (chamferEdgeStep loop normalizeFn distance segments) (true, brush, acc.2)
      if inner.1 then (some (bs ++ [inner.2.1]), inner.2.2)
      else (none, inner.2.2)

/-- `chamferEdges` (Map_Geometry.cpp:961-1017).  `applyToNodeContents` works
on copies; `updateNodeContents` commits and is modelled as succeeding.  The
`kdl::vec_sort_and_remove_duplicates` call is modelled as deduplication (the
verified properties do not depend on processing order). -/
def chamferEdges (loop : ChamferLoop) (normalizeFn : Vec3 → Vec3) (map : MapState)
    (edgePositions : List Seg) (distance : ℚ) (segments : Nat) : Bool × MapState :=
  if edgePositions = [] ∨ distance ≤ 0 ∨ segments = 0 then (false, map)
  else
    let positions := edgePositions.dedup
    let folded :=
      map.selectedBrushes.foldl (chamferBrushStep loop normalizeFn positions distance segments)
        (some [], false)
    match folded.1 with
    | none => (false, map)
    | some bs =>
      if ¬ folded.2 then (false, map)
      else (true, { selectedBrushes := bs })

end Chamfer

/-! ## Verified properties -/

/-- C5: Patch dimension sanitization maps every count below 3 to 3 and every
even count of at least 3 to count+1, warning in both cases, and returns every
odd count of at least 3 unchanged with no warning; sanitizing twice equals
sanitizing once. -/
theorem C5_patch_count_sanitization_idempotent (count : Nat) :
    (count < 3 → MapParser.sanitizePatchCount count
        = (3, ["Invalid patch count, expanding to 3"]))
    ∧ (3 ≤ count → count % 2 = 0 →
        MapParser.sanitizePatchCount count
          = (count + 1, ["Invalid patch count, expanding"]))
    ∧ (3 ≤ count → count % 2 = 1 →
        MapParser.sanitizePatchCount count = (count, []))
    ∧ MapParser.sanitizePatchCount (MapParser.sanitizePatchCount count).1
        = ((MapParser.sanitizePatchCount count).1, []) := by
  unfold MapParser.sanitizePatchCount
  refine ⟨fun h => ?_, fun h3 he => ?_, fun h3 ho => ?_, ?_⟩
  · simp [h]
  · simp only [Nat.beq_eq_true_eq]
    split_ifs
    all_goals simp_all
    all_goals omega
  · simp only [Nat.beq_eq_true_eq]
    split_ifs
    all_goals simp_all
    all_goals omega
  · simp only [Nat.beq_eq_true_eq]
    split_ifs
    all_goals simp_all
    all_goals omega

/-- C5 witness: concrete instances of every hypothesis of
`C5_patch_count_sanitization_idempotent`. -/
theorem C5_patch_count_sanitization_idempotent_witness :
    MapParser.sanitizePatchCount 2 = (3, ["Invalid patch count, expanding to 3"])
    ∧ MapParser.sanitizePatchCount 4 = (5, ["Invalid patch count, expanding"])
    ∧ MapParser.sanitizePatchCount 5 = (5, []) :=
  ⟨(C5_patch_count_sanitization_idempotent 2).1 (by decide),
    ⟨(C5_patch_count_sanitization_idempotent 4).2.1 (by decide) (by decide),
      (C5_patch_count_sanitization_idempotent 5).2.2.1 (by decide) (by decide)⟩⟩

/-- C6: with EOL tracking disabled, "(0 0 0)" lexes as OParen, three Integer
"0" tokens and CParen with no EOL tokens, and "1.5)" lexes as one Decimal
"1.5" followed by CParen; the numeric delimiter set is whitespace plus ')'. -/
theorem C6_tokenizer_number_delimiters :
    Tok.tokenize true ("(0 0 0)")
        = [⟨.OParenthesis, ['(']⟩, ⟨.Integer, ['0']⟩, ⟨.Integer, ['0']⟩,
            ⟨.Integer, ['0']⟩, ⟨.CParenthesis, [')']⟩]
    ∧ (∀ t ∈ Tok.tokenize true ("(0 0 0)"), ¬ t.kind = Tok.TokenKind.Eol)
    ∧ Tok.tokenize true ("1.5)")
        = [⟨.Decimal, ['1', '.', '5']⟩, ⟨.CParenthesis, [')']⟩]
    ∧ Tok.NumberDelim = [' ', '\t', '\n', '\r', ')'] := by
  refine ⟨by decide, by decide, by decide, by decide⟩

/-- C1 counterexample: on the input "/// ab" the annotated comment token's
payload is exactly the three-slash marker, not the comment text up to the end
of the line; the remainder of the line is lexed as an ordinary token. -/
theorem C1_counterexample_annotated_comment_payload :
    Tok.tokenize true ("/// ab")
        = [⟨.Comment, ['/', '/', '/']⟩, ⟨.String, ['a', 'b']⟩]
    ∧ ¬ Tok.tokenize true ("/// ab") = [⟨.Comment, ("/// ab").toList⟩] := by
  refine ⟨by decide, by decide⟩

/-- C1 (amended): "//" followed by a third '/' and a space emits a single
annotated-comment token whose payload is exactly the three-slash marker
(lexing resumes at the following space), while "//" not followed by "/ "
discards the rest of the line as whitespace noise, emitting no token for it. -/
theorem C1_annotated_comment_token (skipEol : Bool) (rest : List Char) (c : Char)
    (cs : List Char) (fuel : Nat) :
    Tok.emitToken skipEol ('/' :: '/' :: '/' :: ' ' :: rest)
        = (⟨.Comment, ['/', '/', '/']⟩, ' ' :: rest)
    ∧ (¬ (c = '/' ∧ cs.head? = some ' ') →
        Tok.emitTokenAux skipEol (fuel + 1) ('/' :: '/' :: c :: cs)
          = Tok.emitTokenAux skipEol fuel (Tok.discardUntil ['\n', '\r'] (c :: cs))) := by
  constructor
  · rfl
  · intro h
    rw [Tok.emitTokenAux]
    split_ifs <;> simp_all

/-- C1 witness: the amended theorem at a concrete input. -/
theorem C1_annotated_comment_token_witness :
    Tok.emitToken true ('/' :: '/' :: '/' :: ' ' :: ['a'])
        = (⟨.Comment, ['/', '/', '/']⟩, [' ', 'a'])
    ∧ Tok.emitTokenAux true 3 ('/' :: '/' :: 'x' :: [])
        = Tok.emitTokenAux true 2 (Tok.discardUntil ['\n', '\r'] ['x']) :=
  ⟨(C1_annotated_comment_token true ['a'] 'x' [] 2).1,
    (C1_annotated_comment_token true ['a'] 'x' [] 2).2 (by decide)⟩

/-- C2 counterexample: on the single-line input the braces are all processed
before the rect line is interpreted, so the scope stack is empty again, there
is no active texture name, and the parse yields an empty map rather than one
rect under "foo". -/
theorem C2_counterexample_single_line :
    Hotspot.parseHotspotRectFile ("foo \x7b rectangles \x7b 0 0 32 32 tileu weight=2 \x7d \x7d") none
        = .ok (.ok [])
    ∧ ¬ Hotspot.parseHotspotRectFile
          ("foo \x7b rectangles \x7b 0 0 32 32 tileu weight=2 \x7d \x7d") none
        = .ok (.ok [("foo", [⟨(0, 0), (32, 32), true, false, 2⟩])]) := by
  refine ⟨by with_unfolding_all decide, by with_unfolding_all decide⟩

/-- C2 (amended): with the rect line on its own line inside the braces, the
parse yields exactly one rect under texture "foo" with min=(0,0),
size=(32,32), tileU=true, tileV=false, weight=2. -/
theorem C2_hotspot_rect_example :
    Hotspot.parseHotspotRectFile
        ("foo \x7b\nrectangles \x7b\n0 0 32 32 tileu weight=2\n\x7d\n\x7d") none
      = .ok (.ok [("foo", [⟨(0, 0), (32, 32), true, false, 2⟩])]) := by
  with_unfolding_all decide

/-- C10 counterexample: a rect line whose leading digit run denotes a value
beyond the float range makes `std::stof` throw `std::out_of_range`
(HotspotRectParser.cpp:144); no try/catch exists, so the exception escapes
`parseHotspotRectFile`, which therefore does not return a success `Result`
for this input. -/
theorem C10_counterexample_stof_overflow :
    Hotspot.parseHotspotRectFile
        ("foo \x7b\n99999999999999999999999999999999999999999999999 0 32 32\n\x7d") none
      = .error ("std::out_of_range")
    ∧ ¬ ∃ m, Hotspot.parseHotspotRectFile
        ("foo \x7b\n99999999999999999999999999999999999999999999999 0 32 32\n\x7d") none
      = .ok (.ok m) := by
  have h : Hotspot.parseHotspotRectFile
      ("foo \x7b\n99999999999999999999999999999999999999999999999 0 32 32\n\x7d") none
      = .error ("std::out_of_range") := by with_unfolding_all decide
  refine ⟨h, ?_⟩
  rintro ⟨m, hm⟩
  rw [h] at hm
  exact Except.noConfusion hm

/-- C10 (amended): parseHotspotRectFile constructs no error `Result` — when it
returns, the returned `Result` is the success holding the accumulated map —
but it is not total: the `std::out_of_range` thrown by `std::stof` on
over-range number matches escapes uncaught.  The per-line step, when it
returns, leaves the accumulated map unchanged on comment-only lines, lines
with no active texture name, lines with fewer than four numbers, and rects of
non-positive size. -/
theorem C10_parse_hotspot_result_never_error (contents : String)
    (defaultTextureName : Option String) (st : Hotspot.ParseState) (rawLine : String) :
    (∀ e, Hotspot.parseHotspotRectFile contents defaultTextureName ≠ .ok (.error e))
    ∧ ((Hotspot.trim (Hotspot.stripComments rawLine)).toList.isEmpty = true →
        Hotspot.processLine defaultTextureName st rawLine = .ok st)
    ∧ (Hotspot.currentTextureName
          (Hotspot.processScopes none st.scopeStack st.pending
            (Hotspot.tokenizeLine (Hotspot.trim (Hotspot.stripComments rawLine)))).1 = none →
        defaultTextureName = none →
        ∃ st2, Hotspot.processLine defaultTextureName st rawLine = .ok st2
          ∧ st2.result = st.result)
    ∧ (∀ values,
        Hotspot.parseNumbers (Hotspot.trim (Hotspot.stripComments rawLine)).toList
            = .ok values →
        values.length < 4 →
        ∃ st2, Hotspot.processLine defaultTextureName st rawLine = .ok st2
          ∧ st2.result = st.result)
    ∧ (∀ values,
        Hotspot.parseNumbers (Hotspot.trim (Hotspot.stripComments rawLine)).toList
            = .ok values →
        (values.getD 2 0 ≤ 0 ∨ values.getD 3 0 ≤ 0) →
        ∃ st2, Hotspot.processLine defaultTextureName st rawLine = .ok st2
          ∧ st2.result = st.result) := by
  refine ⟨fun e h => ?_, fun hempty => ?_, fun htex hdef => ?_,
    fun values hvals hlen => ?_, fun values hvals hsz => ?_⟩
  · unfold Hotspot.parseHotspotRectFile at h
    cases hx : Hotspot.processLines defaultTextureName ⟨[], [], none⟩
        (Hotspot.getLines contents) with
    | error e2 => rw [hx] at h; exact Except.noConfusion h
    | ok st2 =>
      rw [hx] at h
      injection h with h2
      exact Result.noConfusion h2
  · have h0 : (Hotspot.trim (Hotspot.stripComments rawLine)).data = [] := by
      simpa using hempty
    simp [Hotspot.processLine, h0]
  · simp only [Hotspot.processLine]
    split
    · exact ⟨st, rfl, rfl⟩
    · simp only [htex, hdef]
      exact ⟨_, rfl, rfl⟩
  · simp only [Hotspot.processLine]
    split
    · exact ⟨st, rfl, rfl⟩
    · split
      · exact ⟨_, rfl, rfl⟩
      · rw [hvals]
        dsimp only
        rw [if_pos hlen]
        exact ⟨_, rfl, rfl⟩
  · simp only [Hotspot.processLine]
    split
    · exact ⟨st, rfl, rfl⟩
    · split
      · exact ⟨_, rfl, rfl⟩
      · rw [hvals]
        dsimp only
        split_ifs
        all_goals exact ⟨_, rfl, rfl⟩

/-- C10 witness: the theorem applied at concrete inputs discharging each
hypothesis. -/
theorem C10_parse_hotspot_result_never_error_witness :
    (Hotspot.processLine none ⟨[], ["foo"], none⟩ ("// only a comment")
        = .ok ⟨[], ["foo"], none⟩)
    ∧ (∃ st2, Hotspot.processLine none ⟨[], [], none⟩ ("0 0 32 32") = .ok st2
        ∧ st2.result = [])
    ∧ (∃ st2, Hotspot.processLine none ⟨[], ["foo"], none⟩ ("1 2 3") = .ok st2
        ∧ st2.result = [])
    ∧ (∃ st2, Hotspot.processLine none ⟨[], ["foo"], none⟩ ("0 0 0 32") = .ok st2
        ∧ st2.result = []) :=
  ⟨(C10_parse_hotspot_result_never_error ("") none ⟨[], ["foo"], none⟩
      ("// only a comment")).2.1 (by with_unfolding_all decide),
    (C10_parse_hotspot_result_never_error ("") none ⟨[], [], none⟩
      ("0 0 32 32")).2.2.1 (by with_unfolding_all decide) rfl,
    (C10_parse_hotspot_result_never_error ("") none ⟨[], ["foo"], none⟩
      ("1 2 3")).2.2.2.1 [1, 2, 3] (by with_unfolding_all decide)
      (by with_unfolding_all decide),
    (C10_parse_hotspot_result_never_error ("") none ⟨[], ["foo"], none⟩
      ("0 0 0 32")).2.2.2.2 [0, 0, 0, 32] (by with_unfolding_all decide)
      (Or.inl (by with_unfolding_all decide))⟩

/-- Once the pairwise intersection loop has failed, further steps change
nothing. -/
theorem csgStep_foldl_of_invalid (l : List Csg.Brush) (acc : Csg.Brush × Bool × List String)
    (h : acc.2.1 = false) : l.foldl Csg.csgStep acc = acc := by
  induction l with
  | nil => rfl
  | cons b l ih =>
    have hstep : Csg.csgStep acc b = acc := by
      simp [Csg.csgStep, h]
    rw [List.foldl_cons, hstep, ih]

/-- If the pairwise intersection loop ends invalid while it started valid, an
error was logged. -/
theorem csgStep_foldl_logs (l : List Csg.Brush) (acc : Csg.Brush × Bool × List String)
    (hvalid : acc.2.1 = true) (hres : (l.foldl Csg.csgStep acc).2.1 = false) :
    (l.foldl Csg.csgStep acc).2.2 ≠ [] := by
  induction l generalizing acc with
  | nil => simp_all
  | cons b l ih =>
    rw [List.foldl_cons]
    by_cases hok : ∃ b2, acc.1.intersect b = .ok b2
    · obtain ⟨b2, hb2⟩ := hok
      have : Csg.csgStep acc b = (b2, true, acc.2.2) := by
        simp [Csg.csgStep, hvalid, hb2]
      rw [this]
      exact ih _ rfl (by rw [List.foldl_cons, this] at hres; exact hres)
    · obtain ⟨e, he⟩ : ∃ e, acc.1.intersect b = .error e := by
        cases hx : acc.1.intersect b with
        | ok b2 => exact absurd ⟨b2, hx⟩ hok
        | error e => exact ⟨e, rfl⟩
      have hstep : Csg.csgStep acc b
          = (acc.1, false, acc.2.2 ++ ["Could not intersect brushes: " ++ e]) := by
        simp [Csg.csgStep, hvalid, he]
      rw [hstep, csgStep_foldl_of_invalid _ _ rfl]
      simp

/-- C3 counterexample: two disjoint brushes.  The pairwise intersection fails,
yet the operation still commits (returns true) and removes the selected
brushes, so the input state is not left unchanged and no failure is reported
through the return value. -/
theorem C3_counterexample_csg_intersect :
    (Csg.pairwiseIntersect ⟨⟨0, 0, 0⟩, ⟨1, 1, 1⟩⟩ [⟨⟨2, 2, 2⟩, ⟨3, 3, 3⟩⟩]).2.1 = false
    ∧ (Csg.csgIntersect ⟨[⟨⟨0, 0, 0⟩, ⟨1, 1, 1⟩⟩, ⟨⟨2, 2, 2⟩, ⟨3, 3, 3⟩⟩], []⟩).1 = true
    ∧ ¬ (Csg.csgIntersect ⟨[⟨⟨0, 0, 0⟩, ⟨1, 1, 1⟩⟩, ⟨⟨2, 2, 2⟩, ⟨3, 3, 3⟩⟩], []⟩).2.1
        = ⟨[⟨⟨0, 0, 0⟩, ⟨1, 1, 1⟩⟩, ⟨⟨2, 2, 2⟩, ⟨3, 3, 3⟩⟩], []⟩ := by
  refine ⟨by with_unfolding_all decide, by with_unfolding_all decide,
    by with_unfolding_all decide⟩

/-- C3 (amended): csgIntersect intersects the selection pairwise in sequence;
on success the single intersection brush replaces the inputs.  If any
pairwise intersection fails, the failure is only logged: no intersection
brush (degenerate or otherwise) is added, but the selected input brushes are
still removed and the transaction is committed, the function returning the
commit result (true) rather than reporting failure. -/
theorem C3_csg_intersect_failure_commits (st : Csg.MapState) (first : Csg.Brush)
    (rest : List Csg.Brush) (hsel : st.selectedBrushes = first :: rest) (hne : ¬ rest = []) :
    (Csg.csgIntersect st).1 = true
    ∧ (Csg.csgIntersect st).2.1.otherBrushes = st.otherBrushes
    ∧ ((Csg.pairwiseIntersect first rest).2.1 = true →
        (Csg.csgIntersect st).2.1.selectedBrushes = [(Csg.pairwiseIntersect first rest).1])
    ∧ ((Csg.pairwiseIntersect first rest).2.1 = false →
        (Csg.csgIntersect st).2.1.selectedBrushes = []
          ∧ ¬ (Csg.csgIntersect st).2.2 = []) := by
  match hr : rest with
  | [] => exact absurd rfl (hr ▸ hne)
  | r :: rs =>
    have hfold := csgStep_foldl_logs (r :: rs) (first, true, []) rfl
    simp only [Csg.csgIntersect, hsel]
    constructor
    · split <;> rfl
    constructor
    · split <;> rfl
    constructor
    · intro hv
      rw [if_pos hv]
    · intro hv
      rw [if_neg (by simp [hv])]
      exact ⟨rfl, hfold hv⟩

/-- C3 witness: the amended theorem at the concrete disjoint-brush state. -/
theorem C3_csg_intersect_failure_commits_witness :
    (Csg.csgIntersect ⟨[⟨⟨0, 0, 0⟩, ⟨1, 1, 1⟩⟩, ⟨⟨2, 2, 2⟩, ⟨3, 3, 3⟩⟩], []⟩).1 = true
    ∧ (Csg.csgIntersect
        ⟨[⟨⟨0, 0, 0⟩, ⟨1, 1, 1⟩⟩, ⟨⟨2, 2, 2⟩, ⟨3, 3, 3⟩⟩], []⟩).2.1.selectedBrushes = [] := by
  have h := C3_csg_intersect_failure_commits
    ⟨[⟨⟨0, 0, 0⟩, ⟨1, 1, 1⟩⟩, ⟨⟨2, 2, 2⟩, ⟨3, 3, 3⟩⟩], []⟩
    ⟨⟨0, 0, 0⟩, ⟨1, 1, 1⟩⟩ [⟨⟨2, 2, 2⟩, ⟨3, 3, 3⟩⟩] rfl (by simp)
  exact ⟨h.1, (h.2.2.2 (by with_unfolding_all decide)).1⟩

/-- Lagrange's identity in three dimensions. -/
theorem lagrange3 (a b : Vec3) :
    dot3 a b ^ 2 + sqLen3 (cross3 a b) = sqLen3 a * sqLen3 b := by
  simp only [dot3, cross3, sqLen3]
  ring

theorem sqLen3_nonneg (a : Vec3) : 0 ≤ sqLen3 a := by
  simp only [sqLen3, dot3]
  nlinarith [sq_nonneg a.x, sq_nonneg a.y, sq_nonneg a.z]

/-- Reading the parallel-projected-normals fact out of `coplanarAt`. -/
theorem coplanarAt_spec (nfn : Vec3 → Vec3) (brush : Chamfer.Brush) (seg : Chamfer.Seg)
    (edge : Chamfer.Edge) (i1 i2 : Nat)
    (hfind : Chamfer.findEdgeByPositions brush seg Chamfer.pointStatusEpsilon = some edge)
    (hf1 : edge.face1 = some i1) (hf2 : edge.face2 = some i2)
    (h : Chamfer.coplanarAt nfn brush seg = true) :
    cross3 (Chamfer.projectedNormal nfn brush edge i1)
        (Chamfer.projectedNormal nfn brush edge i2) = Vec3.mk 0 0 0 := by
  rw [Chamfer.coplanarAt, hfind] at h
  simp only [hf1, hf2, decide_eq_true_eq] at h
  exact h

/-- On an edge whose projected adjacent-face normals are parallel or
anti-parallel, `chamferBrushEdge` performs no mutation and reports success
with `didChamfer` untouched, whatever the clipping loop would do. -/
theorem chamferBrushEdge_coplanar_noop (loop : Chamfer.ChamferLoop)
    (nfn : Vec3 → Vec3) (brush : Chamfer.Brush) (seg : Chamfer.Seg) (distance : ℚ)
    (segments : Nat) (didChamfer : Bool)
    (h : Chamfer.coplanarAt nfn brush seg = true) :
    Chamfer.chamferBrushEdge loop nfn brush seg distance segments didChamfer
      = (true, brush, didChamfer) := by
  rw [Chamfer.chamferBrushEdge]
  cases hfind : Chamfer.findEdgeByPositions brush seg Chamfer.pointStatusEpsilon with
  | none => rfl
  | some edge =>
    by_cases hfs : edge.fullySpecified
    all_goals simp only [hfs, not_true_eq_false, not_false_eq_true, if_true, if_false]
    case neg => rfl
    cases hf1 : edge.face1 with
    | none => simp
    | some i1 =>
      cases hf2 : edge.face2 with
      | none => simp
      | some i2 =>
        have hcross := coplanarAt_spec nfn brush seg edge i1 i2 hfind hf1 hf2 h
        simp only [Chamfer.projectedNormal] at hcross
        simp only []
        split_ifs with g1 g2 g3
        · rfl
        · rfl
        · rfl
        · exfalso
          apply g3
          have hL := lagrange3
            (sub3 (brush.faces.getD i1 default).normal
              (smul3 (dot3 (brush.faces.getD i1 default).normal
                  (nfn (sub3 edge.stop edge.start)))
                (nfn (sub3 edge.stop edge.start))))
            (sub3 (brush.faces.getD i2 default).normal
              (smul3 (dot3 (brush.faces.getD i2 default).normal
                  (nfn (sub3 edge.stop edge.start)))
                (nfn (sub3 edge.stop edge.start))))
          rw [hcross] at hL
          have hz : sqLen3 (Vec3.mk 0 0 0) = 0 := by
            simp [sqLen3, dot3]
          rw [hz, add_zero] at hL
          push_neg at g2
          have hn1 := sqLen3_nonneg
            (sub3 (brush.faces.getD i1 default).normal
              (smul3 (dot3 (brush.faces.getD i1 default).normal
                  (nfn (sub3 edge.stop edge.start)))
                (nfn (sub3 edge.stop edge.start))))
          have hn2 := sqLen3_nonneg
            (sub3 (brush.faces.getD i2 default).normal
              (smul3 (dot3 (brush.faces.getD i2 default).normal
                  (nfn (sub3 edge.stop edge.start)))
                (nfn (sub3 edge.stop edge.start))))
          have heps : (1 - almostZero) ^ 2 ≤ 1 := by
            rw [almostZero]
            norm_num
          nlinarith [mul_nonneg hn1 hn2]

/-- A fold of `chamferEdgeStep` over edges with parallel projected normals is
the identity. -/
theorem chamferEdgeStep_foldl_noop (loop : Chamfer.ChamferLoop) (nfn : Vec3 → Vec3)
    (distance : ℚ) (segments : Nat) (brush : Chamfer.Brush) (dc : Bool)
    (es : List Chamfer.Seg) (h : ∀ e ∈ es, Chamfer.coplanarAt nfn brush e = true) :
    es.foldl (Chamfer.chamferEdgeStep loop nfn distance segments) (true, brush, dc)
      = (true, brush, dc) := by
  induction es with
  | nil => rfl
  | cons e es ih =>
    rw [List.foldl_cons]
    have hstep : Chamfer.chamferEdgeStep loop nfn distance segments (true, brush, dc) e
        = (true, brush, dc) := by
      simp only [Chamfer.chamferEdgeStep, if_true]
      exact chamferBrushEdge_coplanar_noop loop nfn brush e distance segments dc
        (h e (List.mem_cons_self e es))
    rw [hstep]
    exact ih fun e2 he2 => h e2 (List.mem_cons_of_mem e he2)

/-- A fold of `chamferBrushStep` over brushes all of whose matched edges have
parallel projected normals keeps every brush and never sets `didChamfer`. -/
theorem chamferBrushStep_foldl_noop (loop : Chamfer.ChamferLoop) (nfn : Vec3 → Vec3)
    (positions : List Chamfer.Seg) (distance : ℚ) (segments : Nat)
    (brushes : List Chamfer.Brush)
    (h : ∀ b ∈ brushes, ∀ e ∈ positions, Chamfer.coplanarAt nfn b e = true)
    (xs : List Chamfer.Brush) :
    brushes.foldl (Chamfer.chamferBrushStep loop nfn positions distance segments)
        (some xs, false)
      = (some (xs ++ brushes), false) := by
  induction brushes generalizing xs with
  | nil => simp
  | cons b bs ih =>
    rw [List.foldl_cons]
    have hstep : Chamfer.chamferBrushStep loop nfn positions distance segments
        (some xs, false) b = (some (xs ++ [b]), false) := by
      rw [Chamfer.chamferBrushStep]
      by_cases hfilter : positions.filter
          (fun e => (Chamfer.findEdgeByPositions b e Chamfer.pointStatusEpsilon).isSome)
          = []
      · simp [hfilter]
      · simp only [if_neg hfilter]
        rw [chamferEdgeStep_foldl_noop loop nfn distance segments b false _
          (fun e he => h b (List.mem_cons_self b bs) e (List.mem_of_mem_filter he))]
        simp
    rw [hstep, ih (fun b2 hb2 => h b2 (List.mem_cons_of_mem b hb2))]
    simp

/-- C8: chamfering an edge whose two adjacent faces are coplanar/parallel
(projected normals parallel or anti-parallel) performs no brush mutation and
leaves didChamfer untouched, and chamferEdges over a selection in which every
matched edge is such reports false (no chamfer performed) with the map
unchanged, rather than producing an error. -/
theorem C8_chamfer_coplanar_is_noop (loop : Chamfer.ChamferLoop) (nfn : Vec3 → Vec3)
    (brush : Chamfer.Brush) (seg : Chamfer.Seg) (didChamfer : Bool)
    (map : Chamfer.MapState) (edgePositions : List Chamfer.Seg) (distance : ℚ)
    (segments : Nat)
    (h1 : Chamfer.coplanarAt nfn brush seg = true)
    (h2 : ∀ b ∈ map.selectedBrushes, ∀ e ∈ edgePositions,
        Chamfer.coplanarAt nfn b e = true) :
    Chamfer.chamferBrushEdge loop nfn brush seg distance segments didChamfer
        = (true, brush, didChamfer)
    ∧ Chamfer.chamferEdges loop nfn map edgePositions distance segments = (false, map) := by
  refine ⟨chamferBrushEdge_coplanar_noop loop nfn brush seg distance segments didChamfer h1, ?_⟩
  rw [Chamfer.chamferEdges]
  split_ifs with hpre
  · rfl
  · dsimp only
    rw [chamferBrushStep_foldl_noop loop nfn edgePositions.dedup distance segments
      map.selectedBrushes
      (fun b hb e he => h2 b hb e (List.mem_dedup.mp he)) []]
    simp

/-- C8 witness: a brush whose edge has two faces with identical normals; the
adversarial loop would corrupt everything were it ever called. -/
theorem C8_chamfer_coplanar_is_noop_witness :
    Chamfer.chamferBrushEdge
        (fun _ _ _ _ _ _ _ => (false, ⟨[], []⟩, true)) id
        ⟨[⟨⟨0, 0, 1⟩⟩, ⟨⟨0, 0, 1⟩⟩], [⟨⟨0, 0, 0⟩, ⟨1, 0, 0⟩, some 0, some 1, true⟩]⟩
        (⟨0, 0, 0⟩, ⟨1, 0, 0⟩) 1 1 false
      = (true, ⟨[⟨⟨0, 0, 1⟩⟩, ⟨⟨0, 0, 1⟩⟩], [⟨⟨0, 0, 0⟩, ⟨1, 0, 0⟩, some 0, some 1, true⟩]⟩, false)
    ∧ Chamfer.chamferEdges (fun _ _ _ _ _ _ _ => (false, ⟨[], []⟩, true)) id
        ⟨[⟨[⟨⟨0, 0, 1⟩⟩, ⟨⟨0, 0, 1⟩⟩], [⟨⟨0, 0, 0⟩, ⟨1, 0, 0⟩, some 0, some 1, true⟩]⟩]⟩
        [(⟨0, 0, 0⟩, ⟨1, 0, 0⟩)] 1 1
      = (false,
          ⟨[⟨[⟨⟨0, 0, 1⟩⟩, ⟨⟨0, 0, 1⟩⟩], [⟨⟨0, 0, 0⟩, ⟨1, 0, 0⟩, some 0, some 1, true⟩]⟩]⟩) :=
  C8_chamfer_coplanar_is_noop
    (fun _ _ _ _ _ _ _ => (false, ⟨[], []⟩, true)) id
    ⟨[⟨⟨0, 0, 1⟩⟩, ⟨⟨0, 0, 1⟩⟩], [⟨⟨0, 0, 0⟩, ⟨1, 0, 0⟩, some 0, some 1, true⟩]⟩
    (⟨0, 0, 0⟩, ⟨1, 0, 0⟩) false
    ⟨[⟨[⟨⟨0, 0, 1⟩⟩, ⟨⟨0, 0, 1⟩⟩], [⟨⟨0, 0, 0⟩, ⟨1, 0, 0⟩, some 0, some 1, true⟩]⟩]⟩
    [(⟨0, 0, 0⟩, ⟨1, 0, 0⟩)] 1 1
    (by with_unfolding_all decide)
    (by with_unfolding_all decide)

/-- Length of a rectangular grid built as a flatMap of mapped ranges. -/
theorem grid_length {α : Type} (g : Nat → Nat → α) (rowCount colCount : Nat) :
    ((List.range rowCount).flatMap
        (fun r => (List.range colCount).map (g r))).length
      = rowCount * colCount := by
  induction rowCount generalizing g with
  | zero => simp
  | succ rc ih =>
    rw [List.range_succ_eq_map, List.flatMap_cons, List.flatMap_map, List.length_append]
    simp only [List.length_map, List.length_range]
    rw [ih (fun r => g (r + 1))]
    ring

/-- Indexing a rectangular grid built as a flatMap of mapped ranges. -/
theorem grid_getElem? {α : Type} (g : Nat → Nat → α) (rowCount colCount i j : Nat)
    (hi : i < rowCount) (hj : j < colCount) :
    ((List.range rowCount).flatMap
        (fun r => (List.range colCount).map (g r)))[i * colCount + j]?
      = some (g i j) := by
  induction i generalizing rowCount g with
  | zero =>
    cases rowCount with
    | zero => omega
    | succ rc =>
      rw [List.range_succ_eq_map, List.flatMap_cons]
      rw [List.getElem?_append_left (by simpa using hj)]
      simp [hj]
  | succ i ih =>
    cases rowCount with
    | zero => omega
    | succ rc =>
      rw [List.range_succ_eq_map, List.flatMap_cons, List.flatMap_map]
      have hge : ((List.range colCount).map (g 0)).length ≤ (i + 1) * colCount + j := by
        simp only [List.length_map, List.length_range]
        rw [Nat.succ_mul]
        omega
      rw [List.getElem?_append_right hge]
      have hidx : (i + 1) * colCount + j - ((List.range colCount).map (g 0)).length
          = i * colCount + j := by
        simp only [List.length_map, List.length_range]
        rw [Nat.succ_mul]
        omega
      rw [hidx]
      exact ih (fun r => g (r + 1)) rc (by omega)

/-- The right control-point column of a sub-surface is the left column of its
right neighbor. -/
theorem surfaceCtrl_right_edge (pts : List Vec5) (cols sr c row : Nat) :
    Patch.surfaceCtrl pts cols sr c row 2 = Patch.surfaceCtrl pts cols sr (c + 1) row 0 := by
  unfold Patch.surfaceCtrl
  congr 1
  ring

/-- The bottom control-point row of a sub-surface is the top row of its lower
neighbor. -/
theorem surfaceCtrl_bottom_edge (pts : List Vec5) (cols sr sc col : Nat) :
    Patch.surfaceCtrl pts cols sr sc 2 col = Patch.surfaceCtrl pts cols (sr + 1) sc 0 col := by
  unfold Patch.surfaceCtrl
  congr 1
  ring

/-- Evaluating a quadratic Bezier surface at u = 1 agrees with evaluating a
surface sharing its right column at u = 0. -/
theorem evalQBS_u_edge (cp cp2 : Nat → Nat → Vec5) (vv : ℚ)
    (h0 : cp 0 2 = cp2 0 0) (h1 : cp 1 2 = cp2 1 0) (h2 : cp 2 2 = cp2 2 0) :
    Patch.evalQBS cp 1 vv = Patch.evalQBS cp2 0 vv := by
  simp only [Patch.evalQBS, Patch.bern2, h0, h1, h2]
  norm_num
  simp only [add5, smul5, Vec5.mk.injEq]
  refine ⟨by ring, by ring, by ring, by ring, by ring⟩

/-- Evaluating a quadratic Bezier surface at v = 1 agrees with evaluating a
surface sharing its bottom row at v = 0. -/
theorem evalQBS_v_edge (cp cp2 : Nat → Nat → Vec5) (uu : ℚ)
    (h0 : cp 2 0 = cp2 0 0) (h1 : cp 2 1 = cp2 0 1) (h2 : cp 2 2 = cp2 0 2) :
    Patch.evalQBS cp uu 1 = Patch.evalQBS cp2 uu 0 := by
  simp only [Patch.evalQBS, Patch.bern2, h0, h1, h2]
  norm_num
  simp only [add5, smul5, Vec5.mk.injEq]
  refine ⟨by ring, by ring, by ring, by ring, by ring⟩

/-- C4: with zero subdivisions the evaluated grid has exactly
(surfaceRowCount+1) x (surfaceColumnCount+1) points; each grid point samples
the earlier (lower-index) surface with local parameter 1 along a shared edge;
and sampling a surface at parameter 1 coincides with sampling its right/lower
neighbor at parameter 0, so adjacent surfaces agree at shared points. -/
theorem C4_evaluate_zero_subdivisions (p : Patch.BezierPatch) (_h : Patch.Invariant p) :
    (Patch.evaluate p 0).length
        = (Patch.surfaceRowCount p + 1) * (Patch.surfaceColumnCount p + 1)
    ∧ (∀ i j, i ≤ Patch.surfaceRowCount p → j ≤ Patch.surfaceColumnCount p →
        (Patch.evaluate p 0).getD (i * (Patch.surfaceColumnCount p + 1) + j) default
          = Patch.evalQBS
              (Patch.surfaceCtrl p.controlPoints p.pointColumnCount
                (i - if 0 < i then 1 else 0) (j - if 0 < j then 1 else 0))
              (if 0 < j then 1 else 0) (if 0 < i then 1 else 0))
    ∧ (∀ sr c vv,
        Patch.evalQBS (Patch.surfaceCtrl p.controlPoints p.pointColumnCount sr c) 1 vv
          = Patch.evalQBS
              (Patch.surfaceCtrl p.controlPoints p.pointColumnCount sr (c + 1)) 0 vv)
    ∧ (∀ sr c uu,
        Patch.evalQBS (Patch.surfaceCtrl p.controlPoints p.pointColumnCount sr c) uu 1
          = Patch.evalQBS
              (Patch.surfaceCtrl p.controlPoints p.pointColumnCount (sr + 1) c) uu 0) := by
  have hgrid : Patch.evaluate p 0
      = (List.range ((p.pointRowCount - 1) / 2 + 1)).flatMap
          (fun gridRow => (List.range ((p.pointColumnCount - 1) / 2 + 1)).map
            (fun gridCol =>
              Patch.evalQBS
                (Patch.surfaceCtrl p.controlPoints p.pointColumnCount
                  (if 0 < gridRow then gridRow - 1 else gridRow)
                  (if 0 < gridCol then gridCol - 1 else gridCol))
                ((gridCol - (if 0 < gridCol then gridCol - 1 else gridCol) : Nat) : ℚ)
                ((gridRow - (if 0 < gridRow then gridRow - 1 else gridRow) : Nat) : ℚ))) := by
    simp [Patch.evaluate, Patch.evaluatePatchGrid]
  refine ⟨?_, fun i j hi hj => ?_, fun sr c vv => ?_, fun sr c uu => ?_⟩
  · rw [hgrid, grid_length]
    simp [Patch.surfaceRowCount, Patch.surfaceColumnCount, Patch.quadRowCount,
      Patch.quadColumnCount]
  · have hi2 : i < (p.pointRowCount - 1) / 2 + 1 := by
      have := hi
      simp only [Patch.surfaceRowCount, Patch.quadRowCount] at this
      omega
    have hj2 : j < (p.pointColumnCount - 1) / 2 + 1 := by
      have := hj
      simp only [Patch.surfaceColumnCount, Patch.quadColumnCount] at this
      omega
    have hsc : Patch.surfaceColumnCount p = (p.pointColumnCount - 1) / 2 := rfl
    rw [hgrid, hsc, List.getD_eq_getElem?_getD, grid_getElem? _ _ _ i j hi2 hj2]
    by_cases hi0 : 0 < i
    · by_cases hj0 : 0 < j
      · have e1 : i - (i - 1) = 1 := by omega
        have e2 : j - (j - 1) = 1 := by omega
        simp [hi0, hj0, e1, e2]
      · have hj0z : j = 0 := by omega
        subst hj0z
        have e1 : i - (i - 1) = 1 := by omega
        simp [hi0, e1]
    · have hi0z : i = 0 := by omega
      subst hi0z
      by_cases hj0 : 0 < j
      · have e2 : j - (j - 1) = 1 := by omega
        simp [hj0, e2]
      · have hj0z : j = 0 := by omega
        subst hj0z
        simp
  · exact evalQBS_u_edge _ _ vv
      (surfaceCtrl_right_edge p.controlPoints p.pointColumnCount sr c 0)
      (surfaceCtrl_right_edge p.controlPoints p.pointColumnCount sr c 1)
      (surfaceCtrl_right_edge p.controlPoints p.pointColumnCount sr c 2)
  · exact evalQBS_v_edge _ _ uu
      (surfaceCtrl_bottom_edge p.controlPoints p.pointColumnCount sr c 0)
      (surfaceCtrl_bottom_edge p.controlPoints p.pointColumnCount sr c 1)
      (surfaceCtrl_bottom_edge p.controlPoints p.pointColumnCount sr c 2)

/-- Indexing the mirrored grid: entry (r, c) of the mirror is entry
(r, cols-1-c) of the original. -/
theorem mirrorColumns_getD {α : Type} [Inhabited α] (pts : List α) (rows cols r c : Nat)
    (hr : r < rows) (hc : c < cols) :
    (Patch.mirrorColumns pts rows cols).getD (r * cols + c) default
      = pts.getD (r * cols + (cols - 1 - c)) default := by
  have hcols : 0 < cols := by omega
  have hidx : r * cols + c < rows * cols := by
    have h1 : r * cols + c < (r + 1) * cols := by
      rw [Nat.succ_mul]
      omega
    have h2 : (r + 1) * cols ≤ rows * cols := Nat.mul_le_mul_right _ (by omega)
    omega
  have hdiv : (r * cols + c) / cols = r := by
    rw [Nat.add_comm, Nat.add_mul_div_right _ _ hcols, Nat.div_eq_of_lt hc]
    omega
  have hmod : (r * cols + c) % cols = c := by
    rw [Nat.add_comm, Nat.add_mul_mod_self_right]
    exact Nat.mod_eq_of_lt hc
  unfold Patch.mirrorColumns
  rw [List.getD_eq_getElem?_getD, List.getElem?_map, List.getElem?_range hidx]
  simp [hdiv, hmod]

/-- C7: an orientation-reversing transformation (negative determinant of the
linear part) mirrors the transformed control-point grid along the column
axis — entry (r, c) receives the transformed entry (r, cols-1-c) — and when
control normals are present they are mirrored in lockstep. -/
theorem C7_orientation_reversing_mirrors_columns (nfn : Vec3 → Vec3) (t : Affine)
    (p : Patch.BezierPatch) (hdet : t.linear.det < 0) (r c : Nat)
    (hr : r < p.pointRowCount) (hc : c < p.pointColumnCount) :
    Patch.controlPoint (Patch.transform nfn t p) r c
        = (Patch.transformedControlPoints t p).getD
            (r * p.pointColumnCount + (p.pointColumnCount - 1 - c)) default
    ∧ (¬ p.controlNormals.isEmpty = true →
        (Patch.transform nfn t p).controlNormals.getD (r * p.pointColumnCount + c) default
          = (Patch.transformedControlNormals nfn t p).getD
              (r * p.pointColumnCount + (p.pointColumnCount - 1 - c)) default) := by
  have hop : t.isOrientationPreserving = false := by
    simp only [Affine.isOrientationPreserving, decide_eq_false_iff_not, not_lt]
    exact le_of_lt hdet
  constructor
  · unfold Patch.controlPoint
    simp only [Patch.transform, hop, Bool.false_eq_true, if_false]
    exact mirrorColumns_getD _ _ _ r c hr hc
  · intro hne
    have hne1 : (Patch.transformedControlNormals nfn t p).isEmpty = false := by
      unfold Patch.transformedControlNormals
      cases hcn : p.controlNormals with
      | nil => exact absurd (by simp [hcn]) hne
      | cons x xs => simp [hcn]
    simp only [Patch.transform, hop, Bool.false_eq_true, if_false, hne1]
    exact mirrorColumns_getD _ _ _ r c hr hc

/-- The bounds-builder step is commutative. -/
theorem addToBuilder_comm (b : Option (Vec3 × Vec3)) (x y : Vec3) :
    Patch.addToBuilder (Patch.addToBuilder b x) y
      = Patch.addToBuilder (Patch.addToBuilder b y) x := by
  cases b with
  | none =>
    simp only [Patch.addToBuilder, min3c, max3c, Option.some.injEq,
      Prod.mk.injEq, Vec3.mk.injEq]
    exact ⟨⟨min_comm _ _, min_comm _ _, min_comm _ _⟩,
      ⟨max_comm _ _, max_comm _ _, max_comm _ _⟩⟩
  | some lohi =>
    obtain ⟨lo, hi⟩ := lohi
    simp only [Patch.addToBuilder, min3c, max3c, Option.some.injEq,
      Prod.mk.injEq, Vec3.mk.injEq]
    exact ⟨⟨min_right_comm _ _ _, min_right_comm _ _ _, min_right_comm _ _ _⟩,
      ⟨sup_right_comm _ _ _, sup_right_comm _ _ _, sup_right_comm _ _ _⟩⟩

/-- Folding the bounds builder is invariant under permutation of the points. -/
theorem foldl_builder_perm {l₁ l₂ : List Vec5} (h : l₁.Perm l₂)
    (b : Option (Vec3 × Vec3)) :
    l₁.foldl (fun b p => Patch.addToBuilder b p.xyz) b
      = l₂.foldl (fun b p => Patch.addToBuilder b p.xyz) b := by
  induction h generalizing b with
  | nil => rfl
  | cons x _ ih =>
    simp only [List.foldl_cons]
    exact ih _
  | swap x y l =>
    simp only [List.foldl_cons]
    rw [addToBuilder_comm]
  | trans _ _ ih₁ ih₂ => exact (ih₁ b).trans (ih₂ b)

/-- `computeBounds` is invariant under permutation of the points. -/
theorem computeBounds_perm {l₁ l₂ : List Vec5} (h : l₁.Perm l₂) :
    Patch.computeBounds l₁ = Patch.computeBounds l₂ :=
  foldl_builder_perm h none

/-- Reading every index of a list back yields the list. -/
theorem map_getD_range {α : Type} [Inhabited α] (pts : List α) :
    (List.range pts.length).map (fun i => pts.getD i default) = pts := by
  apply List.ext_getElem
  · simp
  · intro i h1 h2
    simp [List.getD_eq_getElem?_getD, List.getElem?_eq_getElem h2]

/-- Re-indexing a list by an involution of its index range permutes it. -/
theorem perm_of_involution {α : Type} [Inhabited α] (pts : List α) (σ : Nat → Nat)
    (hlt : ∀ i, i < pts.length → σ i < pts.length)
    (hinv : ∀ i, i < pts.length → σ (σ i) = i) :
    ((List.range pts.length).map (fun i => pts.getD (σ i) default)).Perm pts := by
  rw [← Multiset.coe_eq_coe]
  have himg : (Finset.range pts.length).image σ = Finset.range pts.length := by
    apply Finset.ext
    intro j
    simp only [Finset.mem_image, Finset.mem_range]
    constructor
    · rintro ⟨i, hi, rfl⟩
      exact hlt i hi
    · intro hj
      exact ⟨σ j, hlt j hj, hinv j hj⟩
  have hinj : Set.InjOn σ (Finset.range pts.length) := by
    intro a ha b hb hab
    simp only [Finset.coe_range, Set.mem_Iio] at ha hb
    calc a = σ (σ a) := (hinv a ha).symm
      _ = σ (σ b) := by rw [hab]
      _ = b := hinv b hb
  have hmul : Multiset.map σ (Multiset.range pts.length) = Multiset.range pts.length := by
    have hval := Finset.image_val_of_injOn hinj
    rw [himg] at hval
    rw [Finset.range_val] at hval
    exact hval.symm
  calc ((List.range pts.length).map (fun i => pts.getD (σ i) default) : Multiset α)
      = Multiset.map (fun i => pts.getD i default)
          (Multiset.map σ (Multiset.range pts.length)) := by
        rw [Multiset.map_map]
        rfl
    _ = Multiset.map (fun i => pts.getD i default) (Multiset.range pts.length) := by
        rw [hmul]
    _ = (pts : Multiset α) := by
        show ((List.range pts.length).map (fun i => pts.getD i default) : Multiset α) = _
        rw [map_getD_range]

/-- Mirroring the columns of a full grid permutes its entries. -/
theorem mirrorColumns_perm {α : Type} [Inhabited α] (pts : List α) (rows cols : Nat)
    (hlen : pts.length = rows * cols) :
    (Patch.mirrorColumns pts rows cols).Perm pts := by
  by_cases hc : cols = 0
  · subst hc
    have : pts = [] := List.length_eq_zero.mp (by omega)
    subst this
    simp [Patch.mirrorColumns]
  · have hcols : 0 < cols := Nat.pos_of_ne_zero hc
    have hbody : Patch.mirrorColumns pts rows cols
        = (List.range pts.length).map
            (fun i => pts.getD ((i / cols) * cols + (cols - 1 - i % cols)) default) := by
      unfold Patch.mirrorColumns
      rw [hlen]
    rw [hbody]
    apply perm_of_involution pts (fun i => (i / cols) * cols + (cols - 1 - i % cols))
    · intro i hi
      rw [hlen] at hi ⊢
      have hdivlt : i / cols < rows := by
        rw [Nat.div_lt_iff_lt_mul hcols]
        omega
      have h1 : (i / cols) * cols + (cols - 1 - i % cols) < (i / cols + 1) * cols := by
        rw [Nat.succ_mul]
        have := Nat.mod_lt i hcols
        omega
      have h2 : (i / cols + 1) * cols ≤ rows * cols :=
        Nat.mul_le_mul_right _ (by omega)
      omega
    · intro i hi
      have hmodlt : i % cols < cols := Nat.mod_lt i hcols
      have hle : cols - 1 - i % cols < cols := by omega
      have hdiv : ((i / cols) * cols + (cols - 1 - i % cols)) / cols = i / cols := by
        rw [Nat.add_comm, Nat.add_mul_div_right _ _ hcols, Nat.div_eq_of_lt hle]
        omega
      have hmod : ((i / cols) * cols + (cols - 1 - i % cols)) % cols
          = cols - 1 - i % cols := by
        rw [Nat.add_comm, Nat.add_mul_mod_self_right]
        exact Nat.mod_eq_of_lt hle
      rw [hdiv, hmod]
      have : cols - 1 - (cols - 1 - i % cols) = i % cols := by omega
      rw [this, Nat.mul_comm]
      exact Nat.div_add_mod i cols

/-- C9: the stored bounds always equal the bounding box of the current
control points: after construction, after `setControlPoint`, and after
`transform` (where the column mirror permutes the points without changing
their bounding box). -/
theorem C9_bounds_invariant (rows cols : Nat) (pts : List Vec5) (mat : String)
    (sc sf : Int) (sv : ℚ) (ns : List Vec3) (p : Patch.BezierPatch) (row col : Nat)
    (cp : Vec5) (nfn : Vec3 → Vec3) (t : Affine)
    (hlen : p.controlPoints.length = p.pointRowCount * p.pointColumnCount) :
    (Patch.mkBezierPatch rows cols pts mat sc sf sv ns).bounds
        = Patch.computeBounds (Patch.mkBezierPatch rows cols pts mat sc sf sv ns).controlPoints
    ∧ (Patch.setControlPoint p row col cp).bounds
        = Patch.computeBounds (Patch.setControlPoint p row col cp).controlPoints
    ∧ (Patch.transform nfn t p).bounds
        = Patch.computeBounds (Patch.transform nfn t p).controlPoints := by
  refine ⟨rfl, rfl, ?_⟩
  have hlen1 : (Patch.transformedControlPoints t p).length
      = p.pointRowCount * p.pointColumnCount := by
    rw [← hlen]
    exact List.length_map _ _
  by_cases hop : t.isOrientationPreserving
  · simp only [Patch.transform, hop, if_true]
  · simp only [Patch.transform, Bool.not_eq_true] at hop ⊢
    simp only [hop, Bool.false_eq_true, if_false]
    exact (computeBounds_perm
      (mirrorColumns_perm (Patch.transformedControlPoints t p)
        p.pointRowCount p.pointColumnCount hlen1)).symm

/-- C4 witness: the theorem at a concrete 3x3 patch. -/
theorem C4_evaluate_zero_subdivisions_witness :
    (Patch.evaluate Patch.examplePatch 0).length
      = (Patch.surfaceRowCount Patch.examplePatch + 1)
          * (Patch.surfaceColumnCount Patch.examplePatch + 1) :=
  (C4_evaluate_zero_subdivisions Patch.examplePatch
    (by unfold Patch.Invariant; decide)).1

/-- C7 witness: the theorem at a concrete patch with normals under an x-axis
mirror. -/
theorem C7_orientation_reversing_mirrors_columns_witness :
    Patch.controlPoint (Patch.transform id mirrorAffine Patch.examplePatchWithNormals) 0 0
        = (Patch.transformedControlPoints mirrorAffine Patch.examplePatchWithNormals).getD
            (0 * Patch.examplePatchWithNormals.pointColumnCount
              + (Patch.examplePatchWithNormals.pointColumnCount - 1 - 0)) default
    ∧ (Patch.transform id mirrorAffine Patch.examplePatchWithNormals).controlNormals.getD
          (0 * Patch.examplePatchWithNormals.pointColumnCount + 0) default
        = (Patch.transformedControlNormals id mirrorAffine
            Patch.examplePatchWithNormals).getD
            (0 * Patch.examplePatchWithNormals.pointColumnCount
              + (Patch.examplePatchWithNormals.pointColumnCount - 1 - 0)) default :=
  ⟨(C7_orientation_reversing_mirrors_columns id mirrorAffine Patch.examplePatchWithNormals
      (by with_unfolding_all decide) 0 0 (by decide) (by decide)).1,
    (C7_orientation_reversing_mirrors_columns id mirrorAffine Patch.examplePatchWithNormals
      (by with_unfolding_all decide) 0 0 (by decide) (by decide)).2 (by decide)⟩

/-- C9 witness: the transform clause at a concrete patch under an x-axis
mirror. -/
theorem C9_bounds_invariant_witness :
    (Patch.transform id mirrorAffine Patch.examplePatch).bounds
      = Patch.computeBounds (Patch.transform id mirrorAffine Patch.examplePatch).controlPoints :=
  (C9_bounds_invariant 3 3 [] ("") 0 0 0 [] Patch.examplePatch 0 0 default id mirrorAffine
    (by decide)).2.2

end Spec2Proof
